import Mathlib

/-!
Verification of the Release Generation Orchestrator
(`backend/core/release_controller.py`).

This file gives a shallow embedding of the `ReleaseController` data model
and operations and proves the specification claims about them.  Machine
state (the in-memory progress map, the persistence store, the filesystem)
is passed explicitly; collaborator calls and commit outcomes are supplied
by an environment record, and code that can raise is modelled with
`Except`.
-/

set_option maxHeartbeats 1000000

namespace ReleaseCtl

/-- Decidable equality for `Except`, used to evaluate concrete runs. -/
instance exceptDecEq {ε α : Type} [DecidableEq ε] [DecidableEq α] :
    DecidableEq (Except ε α) := fun a b =>
  match a, b with
  | .ok x, .ok y =>
      if h : x = y then isTrue (by rw [h])
      else isFalse (by intro hc; cases hc; exact h rfl)
  | .error x, .error y =>
      if h : x = y then isTrue (by rw [h])
      else isFalse (by intro hc; cases hc; exact h rfl)
  | .ok _, .error _ => isFalse (by intro hc; cases hc)
  | .error _, .ok _ => isFalse (by intro hc; cases hc)

/-- One annotation dict produced by the augmentation executor.  Optional
fields model Python dict key presence (`ann.get(k)` / `'k' in ann`). -/
structure GenAnn where
  class_name : Option String := none
  class_id : Option Nat := none
  type : Option String := none
  points : Option (List (Rat × Rat)) := none
  bbox : Option (Rat × Rat × Rat × Rat) := none
  confidence : Option Rat := none
deriving DecidableEq

/-- One generated-variant dict returned by `process_release_images`. -/
structure GenResult where
  output_filename : Option String := none
  image_width : Option Nat := none
  image_height : Option Nat := none
  output_path : Option String := none
  annotations : Option (List GenAnn) := none
deriving DecidableEq

/-- The `generation_results` mapping `source image -> [GenResult]`,
in dict iteration order. -/
abbrev GenerationResults := List (String × List GenResult)

/-- One step of the annotation scan in `_select_optimal_export_format`:
`if ann.get('type') == 'polygon' and 'points' in ann: has_polygons = True
elif ann.get('type') == 'bbox' or 'bbox' in ann: has_bboxes = True`. -/
def scanAnnFlags (flags : Bool × Bool) (ann : GenAnn) : Bool × Bool :=
  if ann.type == some "polygon" && ann.points.isSome then (true, flags.2)
  else if ann.type == some "bbox" || ann.bbox.isSome then (flags.1, true)
  else flags

/-- Scan of one generated result (`if 'annotations' in result: for ann in ...`). -/
def scanResultFlags (flags : Bool × Bool) (result : GenResult) : Bool × Bool :=
  match result.annotations with
  | some anns => anns.foldl scanAnnFlags flags
  | none => flags

/-- The full `(has_polygons, has_bboxes)` scan over `generation_results`. -/
def scanGenerationFlags (generation_results : GenerationResults) : Bool × Bool :=
  generation_results.foldl (fun flags item => item.2.foldl scanResultFlags flags)
    (false, false)

/-- `ReleaseController._select_optimal_export_format`. -/
def select_optimal_export_format (generation_results : GenerationResults)
    (user_format : String) (task_type : String) : String :=
  if user_format != "" && user_format != "auto" then user_format
  else
    let flags := scanGenerationFlags generation_results
    let has_polygons := flags.1
    let has_bboxes := flags.2
    if task_type = "segmentation" then
      if has_polygons then "yolo_segmentation" else "coco"
    else if task_type = "object_detection" then
      if has_bboxes && !has_polygons then "yolo_detection"
      else if has_polygons then "coco"
      else "yolo_detection"
    else "coco"

/-- An annotation is of polygon kind exactly when the scan's first branch
fires: type tag `"polygon"` and a `points` payload present. -/
def annPolygonKind (a : GenAnn) : Bool :=
  a.type == some "polygon" && a.points.isSome

/-- An annotation is of bbox kind exactly when the scan's `elif` branch
fires: not of polygon kind, and type tag `"bbox"` or a `bbox` key present. -/
def annBboxKind (a : GenAnn) : Bool :=
  !annPolygonKind a && (a.type == some "bbox" || a.bbox.isSome)

/-- Some annotation in the results is of polygon kind. -/
def hasPolygons (gr : GenerationResults) : Bool :=
  gr.any fun item => item.2.any fun r => (r.annotations.getD []).any annPolygonKind

/-- Some annotation in the results is of bbox kind. -/
def hasBboxes (gr : GenerationResults) : Bool :=
  gr.any fun item => item.2.any fun r => (r.annotations.getD []).any annBboxKind

theorem scanAnnFlags_foldl (anns : List GenAnn) :
    ∀ flags : Bool × Bool, anns.foldl scanAnnFlags flags =
      (flags.1 || anns.any annPolygonKind, flags.2 || anns.any annBboxKind) := by
  induction anns with
  | nil => intro flags; simp
  | cons a t ih =>
    intro flags
    rw [List.foldl_cons, ih]
    by_cases hp : (a.type == some "polygon" && a.points.isSome) = true
    · simp [scanAnnFlags, hp, annPolygonKind, annBboxKind]
    · by_cases hb : (a.type == some "bbox" || a.bbox.isSome) = true
      · simp [scanAnnFlags, hp, hb, annPolygonKind, annBboxKind, Bool.or_assoc]
      · simp [scanAnnFlags, hp, hb, annPolygonKind, annBboxKind]

theorem scanResultFlags_foldl (results : List GenResult) :
    ∀ flags : Bool × Bool, results.foldl scanResultFlags flags =
      (flags.1 || results.any (fun r => (r.annotations.getD []).any annPolygonKind),
       flags.2 || results.any (fun r => (r.annotations.getD []).any annBboxKind)) := by
  induction results with
  | nil => intro flags; simp
  | cons r t ih =>
    intro flags
    rw [List.foldl_cons, ih]
    cases h : r.annotations with
    | none => simp [scanResultFlags, h, Option.getD]
    | some anns => simp [scanResultFlags, h, scanAnnFlags_foldl, Bool.or_assoc]

theorem scanGenerationFlags_eq (gr : GenerationResults) :
    scanGenerationFlags gr = (hasPolygons gr, hasBboxes gr) := by
  have key : ∀ (l : GenerationResults) (flags : Bool × Bool),
      l.foldl (fun flags item => item.2.foldl scanResultFlags flags) flags =
        (flags.1 || l.any (fun item =>
            item.2.any fun r => (r.annotations.getD []).any annPolygonKind),
         flags.2 || l.any (fun item =>
            item.2.any fun r => (r.annotations.getD []).any annBboxKind)) := by
    intro l
    induction l with
    | nil => intro flags; simp
    | cons x t ih =>
      intro flags
      rw [List.foldl_cons, ih, scanResultFlags_foldl]
      simp [Bool.or_assoc]
  rw [scanGenerationFlags, key]
  simp [hasPolygons, hasBboxes]

/-- C1: the export format selector.  An explicit non-empty, non-`"auto"`
user format is returned unchanged for every `results` input; otherwise the
choice follows the decision table over `hasPolygons`/`hasBboxes` and the
task type. -/
theorem select_optimal_export_format_spec (gr : GenerationResults)
    (user_format task_type : String) :
    (user_format ≠ "" → user_format ≠ "auto" →
      select_optimal_export_format gr user_format task_type = user_format) ∧
    (user_format = "" ∨ user_format = "auto" →
      ((task_type = "segmentation" → hasPolygons gr = true →
          select_optimal_export_format gr user_format task_type = "yolo_segmentation") ∧
       (task_type = "segmentation" → hasPolygons gr = false →
          select_optimal_export_format gr user_format task_type = "coco") ∧
       (task_type = "object_detection" → hasBboxes gr = true → hasPolygons gr = false →
          select_optimal_export_format gr user_format task_type = "yolo_detection") ∧
       (task_type = "object_detection" → hasPolygons gr = true →
          select_optimal_export_format gr user_format task_type = "coco") ∧
       (task_type = "object_detection" → hasPolygons gr = false → hasBboxes gr = false →
          select_optimal_export_format gr user_format task_type = "yolo_detection") ∧
       (task_type ≠ "segmentation" → task_type ≠ "object_detection" →
          select_optimal_export_format gr user_format task_type = "coco"))) := by
  constructor
  · intro h1 h2
    rw [select_optimal_export_format, if_pos]
    simp [h1, h2]
  · intro huser
    have hcond : (user_format != "" && user_format != "auto") = false := by
      rcases huser with h | h <;> simp [h]
    refine ⟨?_, ?_, ?_, ?_, ?_, ?_⟩ <;>
      simp only [select_optimal_export_format, hcond, Bool.false_eq_true, if_false,
        scanGenerationFlags_eq]
    · intro ht hp; simp [ht, hp]
    · intro ht hp; simp [ht, hp]
    · intro ht hb hp; simp [ht, hp, hb]
    · intro ht hp; simp [ht, hp]
    · intro ht hp hb; simp [ht, hp, hb]
    · intro h1 h2; simp [h1, h2]

/-- A concrete bbox-kind annotation used by example runs. -/
def catBboxAnn : GenAnn :=
  { class_name := some "cat", type := some "bbox", bbox := some (0, 0, 1, 1) }

/-- A concrete generation-results value with one bbox annotation. -/
def grDetEx : GenerationResults := [("a.jpg", [{ annotations := some [catBboxAnn] }])]

/-- Witness for C1: concrete instantiations of the selector claim. -/
theorem select_optimal_export_format_spec_witness :
    select_optimal_export_format [] "coco" "segmentation" = "coco" ∧
    select_optimal_export_format grDetEx "auto" "object_detection" = "yolo_detection" := by
  constructor
  · exact (select_optimal_export_format_spec [] "coco" "segmentation").1
      (by decide) (by decide)
  · exact ((select_optimal_export_format_spec grDetEx "auto"
      "object_detection").2 (Or.inr rfl)).2.2.1 rfl (by decide) (by decide)

/-! ## Annotation Aggregator (`_prepare_export_data`) -/

/-- One image entry of the export payload. -/
structure ImageInfo where
  id : Nat
  name : String
  width : Nat
  height : Nat
  file_path : String
deriving DecidableEq

/-- One annotation entry of the export payload. -/
structure ExportAnn where
  id : Nat
  image_id : Nat
  class_id : Nat
  class_name : String
  type : String
  confidence : Rat
  points : Option (List (Rat × Rat)) := none
  bbox : Option (Rat × Rat × Rat × Rat) := none
deriving DecidableEq

/-- One unified class entry of the export payload. -/
structure UnifiedClass where
  id : Nat
  name : String
  supercategory : String
deriving DecidableEq

/-- The aggregator output (`images`, `annotations`, `classes`). -/
structure ExportData where
  images : List ImageInfo
  annotations : List ExportAnn
  classes : List UnifiedClass
deriving DecidableEq

/-- Accumulator of the first pass of `_prepare_export_data`.  `class_names`
models `classes_set` (Python set membership is all that is consumed). -/
structure PrepAcc where
  images : List ImageInfo
  annotations : List ExportAnn
  class_names : List String
  annotation_id : Nat
deriving DecidableEq

/-- Processing of one annotation dict in `_prepare_export_data`. -/
def processAnn (image_id : Nat) (acc : PrepAcc) (ann : GenAnn) : PrepAcc :=
  let class_name := ann.class_name.getD "unknown"
  let entry : ExportAnn :=
    { id := acc.annotation_id
      image_id := image_id
      class_id := ann.class_id.getD 0
      class_name := class_name
      type := ann.type.getD "bbox"
      confidence := ann.confidence.getD 1
      points := if ann.type == some "polygon" && ann.points.isSome then ann.points else none
      bbox := if !(ann.type == some "polygon" && ann.points.isSome) && ann.bbox.isSome
        then ann.bbox else none }
  { acc with
      annotations := acc.annotations ++ [entry]
      class_names := acc.class_names ++ [class_name]
      annotation_id := acc.annotation_id + 1 }

/-- Processing of one generated result: append its image entry, then its
annotations (when the `annotations` key is present). -/
def processResult (acc : PrepAcc) (result : GenResult) : PrepAcc :=
  let image_info : ImageInfo :=
    { id := acc.images.length
      name := result.output_filename.getD
        ("image_" ++ toString acc.images.length ++ ".jpg")
      width := result.image_width.getD 640
      height := result.image_height.getD 480
      file_path := result.output_path.getD "" }
  let acc1 := { acc with images := acc.images ++ [image_info] }
  match result.annotations with
  | some anns => anns.foldl (processAnn image_info.id) acc1
  | none => acc1

/-- `ReleaseController._prepare_export_data`: first pass collects images,
annotations and class names; then the unified class list is the sorted
distinct class names with ids `0..k-1`, and each annotation's class id is
rewritten through the name-to-unified-id lookup (default 0). -/
def prepare_export_data (generation_results : GenerationResults) : ExportData :=
  let acc := generation_results.foldl (fun a item => item.2.foldl processResult a)
    { images := [], annotations := [], class_names := [], annotation_id := 1 }
  let sorted_names := List.insertionSort (· ≤ ·) acc.class_names.dedup
  let classes := sorted_names.enum.map fun p =>
    ({ id := p.1, name := p.2, supercategory := "object" } : UnifiedClass)
  let class_name_to_id := classes.map fun c => (c.name, c.id)
  let annotations := acc.annotations.map fun a =>
    { a with class_id := (List.lookup a.class_name class_name_to_id).getD 0 }
  { images := acc.images, annotations := annotations, classes := classes }

/-- Class names contributed by one generated result. -/
def resultNames (r : GenResult) : List String :=
  (r.annotations.getD []).map fun a => a.class_name.getD "unknown"

/-- All class names seen across the whole generation-results input. -/
def allClassNames (gr : GenerationResults) : List String :=
  gr.flatMap fun item => item.2.flatMap resultNames

theorem processAnn_class_names (i : Nat) (anns : List GenAnn) :
    ∀ acc : PrepAcc, (anns.foldl (processAnn i) acc).class_names =
      acc.class_names ++ anns.map (fun a => a.class_name.getD "unknown") := by
  induction anns with
  | nil => intro acc; simp
  | cons a t ih => intro acc; rw [List.foldl_cons, ih]; simp [processAnn]

theorem processResult_class_names (r : GenResult) (acc : PrepAcc) :
    (processResult acc r).class_names = acc.class_names ++ resultNames r := by
  rw [processResult]
  cases h : r.annotations with
  | none => simp [resultNames, h]
  | some anns => rw [processAnn_class_names]; simp [resultNames, h]

theorem resultsFold_class_names (results : List GenResult) :
    ∀ acc : PrepAcc, (results.foldl processResult acc).class_names =
      acc.class_names ++ results.flatMap resultNames := by
  induction results with
  | nil => intro acc; simp
  | cons r t ih =>
    intro acc; rw [List.foldl_cons, ih, processResult_class_names]; simp

theorem itemsFold_class_names (gr : GenerationResults) :
    ∀ acc : PrepAcc,
      (gr.foldl (fun a item => item.2.foldl processResult a) acc).class_names =
        acc.class_names ++ allClassNames gr := by
  induction gr with
  | nil => intro acc; simp [allClassNames]
  | cons x t ih =>
    intro acc
    rw [List.foldl_cons, ih, resultsFold_class_names]
    simp [allClassNames]

/-- Invariant of the first pass: image ids are `0..n-1` in order, and every
collected annotation's class name has been added to the name set. -/
def PrepInv (acc : PrepAcc) : Prop :=
  acc.images.map ImageInfo.id = List.range acc.images.length ∧
  ∀ a ∈ acc.annotations, a.class_name ∈ acc.class_names

theorem prepInv_processAnn (i : Nat) (anns : List GenAnn) :
    ∀ acc : PrepAcc, PrepInv acc → PrepInv (anns.foldl (processAnn i) acc) := by
  induction anns with
  | nil => intro acc h; simpa using h
  | cons x t ih =>
    intro acc h
    rw [List.foldl_cons]
    refine ih _ ⟨by simpa using h.1, ?_⟩
    intro a ha
    simp only [processAnn, List.mem_append, List.mem_singleton] at ha
    rcases ha with ha | ha
    · exact List.mem_append_left _ (h.2 a ha)
    · subst ha; simp [processAnn]

theorem prepInv_processResult (r : GenResult) (acc : PrepAcc) :
    PrepInv acc → PrepInv (processResult acc r) := by
  intro h
  have himg : PrepInv { acc with images := acc.images ++
      [{ id := acc.images.length,
         name := r.output_filename.getD ("image_" ++ toString acc.images.length ++ ".jpg"),
         width := r.image_width.getD 640, height := r.image_height.getD 480,
         file_path := r.output_path.getD "" }] } := by
    refine ⟨?_, fun a ha => h.2 a ha⟩
    simp [h.1, List.range_succ]
  rw [processResult]
  cases hr : r.annotations with
  | none => exact himg
  | some anns => exact prepInv_processAnn _ anns _ himg

theorem prepInv_fold (gr : GenerationResults) :
    ∀ acc : PrepAcc, PrepInv acc →
      PrepInv (gr.foldl (fun a item => item.2.foldl processResult a) acc) := by
  induction gr with
  | nil => intro acc h; exact h
  | cons x t ih =>
    intro acc h
    rw [List.foldl_cons]
    refine ih _ ?_
    have : ∀ (rs : List GenResult) (a : PrepAcc), PrepInv a →
        PrepInv (rs.foldl processResult a) := by
      intro rs
      induction rs with
      | nil => intro a ha; exact ha
      | cons r ts ihr =>
        intro a ha
        rw [List.foldl_cons]
        exact ihr _ (prepInv_processResult r a ha)
    exact this x.2 acc h

/-- Lookup in the enumerated name-to-id association list: a member name is
mapped to an index at which the name list holds it. -/
theorem lookup_enumFrom_assoc (n : String) :
    ∀ (l : List String) (k : Nat), n ∈ l →
      ∃ i, i < l.length ∧ l[i]? = some n ∧
        List.lookup n ((List.enumFrom k l).map fun p => (p.2, p.1)) = some (k + i) := by
  intro l
  induction l with
  | nil => intro k h; cases h
  | cons a t ih =>
    intro k h
    by_cases hna : n = a
    · refine ⟨0, by simp, by simp [hna], ?_⟩
      simp [List.enumFrom, List.lookup, hna]
    · have hmem : n ∈ t := by
        rcases List.mem_cons.mp h with h1 | h1
        · exact absurd h1 hna
        · exact h1
      obtain ⟨i, hi, hget, hlook⟩ := ih (k + 1) hmem
      refine ⟨i + 1, by simpa using Nat.succ_lt_succ hi, by simpa using hget, ?_⟩
      have hb : (n == a) = false := beq_false_of_ne hna
      simp only [List.enumFrom, List.map_cons, List.lookup, hb]
      rw [hlook]
      congr 1
      omega

/-- C2: for every generation-results input, the export payload has class
ids `0..k-1` over a sorted, duplicate-free unified class-name list holding
exactly the class names seen; every annotation's class id indexes its own
class name in that list; equal class names get equal ids; image ids are
sequential `0..n-1`. -/
theorem prepare_export_data_spec (gr : GenerationResults) :
    ((prepare_export_data gr).classes.map UnifiedClass.id =
        List.range (prepare_export_data gr).classes.length) ∧
    List.Sorted (· ≤ ·) ((prepare_export_data gr).classes.map UnifiedClass.name) ∧
    ((prepare_export_data gr).classes.map UnifiedClass.name).Nodup ∧
    (∀ n, n ∈ (prepare_export_data gr).classes.map UnifiedClass.name ↔
        n ∈ allClassNames gr) ∧
    (∀ a ∈ (prepare_export_data gr).annotations,
        a.class_id < (prepare_export_data gr).classes.length ∧
        ((prepare_export_data gr).classes.map UnifiedClass.name)[a.class_id]? =
          some a.class_name) ∧
    (∀ a ∈ (prepare_export_data gr).annotations,
        ∀ b ∈ (prepare_export_data gr).annotations,
        a.class_name = b.class_name → a.class_id = b.class_id) ∧
    ((prepare_export_data gr).images.map ImageInfo.id =
        List.range (prepare_export_data gr).images.length) := by
  have hinv : PrepInv (gr.foldl (fun a item => item.2.foldl processResult a)
      { images := [], annotations := [], class_names := [], annotation_id := 1 }) :=
    prepInv_fold gr _ ⟨by simp, by simp⟩
  set acc := gr.foldl (fun a item => item.2.foldl processResult a)
      { images := [], annotations := [], class_names := [], annotation_id := 1 } with hacc
  have hcn : acc.class_names = allClassNames gr := by
    rw [hacc, itemsFold_class_names]; simp
  set sorted_names := List.insertionSort (· ≤ ·) acc.class_names.dedup with hsn
  have hperm : List.Perm sorted_names acc.class_names.dedup :=
    List.perm_insertionSort _ _
  have hnames_eq : (prepare_export_data gr).classes.map UnifiedClass.name = sorted_names := by
    simp only [prepare_export_data, ← hacc, ← hsn, List.map_map]
    have : (UnifiedClass.name ∘ fun p : Nat × String =>
        ({ id := p.1, name := p.2, supercategory := "object" } : UnifiedClass)) =
        Prod.snd := rfl
    rw [this, List.enum_map_snd]
  have hlen : (prepare_export_data gr).classes.length = sorted_names.length := by
    rw [← hnames_eq, List.length_map]
  have hmemname : ∀ n, n ∈ sorted_names ↔ n ∈ allClassNames gr := by
    intro n
    rw [hperm.mem_iff, List.mem_dedup, hcn]
  have hann : ∀ a ∈ (prepare_export_data gr).annotations,
      ∃ b, b ∈ acc.annotations ∧
        a = { b with class_id := (List.lookup b.class_name
          ((sorted_names.enum.map fun p : Nat × String =>
            ({ id := p.1, name := p.2, supercategory := "object" } : UnifiedClass)).map
              fun c => (c.name, c.id))).getD 0 } := by
    intro a ha
    simp only [prepare_export_data, ← hacc, ← hsn, List.mem_map] at ha
    obtain ⟨b, hb, hab⟩ := ha
    exact ⟨b, hb, hab.symm⟩
  have hassoc : ((sorted_names.enum.map fun p : Nat × String =>
      ({ id := p.1, name := p.2, supercategory := "object" } : UnifiedClass)).map
        fun c => (c.name, c.id)) =
      sorted_names.enum.map fun p => (p.2, p.1) := by
    rw [List.map_map]; rfl
  have hlook : ∀ n ∈ sorted_names,
      ∃ i, i < sorted_names.length ∧ sorted_names[i]? = some n ∧
        List.lookup n ((sorted_names.enum.map fun p : Nat × String =>
          ({ id := p.1, name := p.2, supercategory := "object" } : UnifiedClass)).map
            fun c => (c.name, c.id)) = some i := by
    intro n hn
    obtain ⟨i, hi, hget, hl⟩ := lookup_enumFrom_assoc n sorted_names 0 hn
    refine ⟨i, hi, hget, ?_⟩
    rw [hassoc]
    simpa [List.enum] using hl
  refine ⟨?_, ?_, ?_, ?_, ?_, ?_, ?_⟩
  · simp only [prepare_export_data, ← hacc, ← hsn, List.map_map, List.length_map]
    have : ((fun c : UnifiedClass => c.id) ∘ fun p : Nat × String =>
        ({ id := p.1, name := p.2, supercategory := "object" } : UnifiedClass)) =
        Prod.fst := rfl
    rw [this, List.enum_map_fst, List.enum_length]
  · rw [hnames_eq, hsn]
    exact List.sorted_insertionSort _ _
  · rw [hnames_eq]
    exact hperm.nodup_iff.mpr acc.class_names.nodup_dedup
  · intro n; rw [hnames_eq]; exact hmemname n
  · intro a ha
    obtain ⟨b, hb, hab⟩ := hann a ha
    have hmem : b.class_name ∈ sorted_names := by
      rw [hmemname, ← hcn]
      exact hinv.2 b hb
    obtain ⟨i, hi, hget, hl⟩ := hlook b.class_name hmem
    subst hab
    simp only [hl, Option.getD_some]
    rw [hnames_eq, hlen]
    exact ⟨hi, by simpa using hget⟩
  · intro a ha b hb hname
    obtain ⟨a0, _, ha0⟩ := hann a ha
    obtain ⟨b0, _, hb0⟩ := hann b hb
    subst ha0; subst hb0
    simp only at hname ⊢
    rw [hname]
  · simpa only [prepare_export_data, ← hacc] using hinv.1

/-- A generation-results value whose two annotations share one class. -/
def grAggEx : GenerationResults :=
  [("a.jpg", [{ annotations := some [catBboxAnn, catBboxAnn] }])]

/-- Witness for C2: the aggregator claim instantiated on a concrete input. -/
theorem prepare_export_data_spec_witness :
    (prepare_export_data grAggEx).images.map ImageInfo.id =
      List.range (prepare_export_data grAggEx).images.length ∧
    (∀ n, n ∈ (prepare_export_data grAggEx).classes.map UnifiedClass.name ↔
       n ∈ allClassNames grAggEx) :=
  ⟨(prepare_export_data_spec grAggEx).2.2.2.2.2.2,
   (prepare_export_data_spec grAggEx).2.2.2.1⟩

/-! ## Progress Tracker (`ReleaseProgress` / `update_release_progress`) -/

/-- The in-memory per-release progress entry.  Timestamps are opaque ticks;
the float percentage is modelled exactly over `Rat`. -/
structure ReleaseProgress where
  release_id : String
  status : String
  progress_percentage : Rat
  current_step : String
  total_images : Nat
  processed_images : Nat
  generated_images : Nat
  error_message : Option String := none
  started_at : Option Nat := none
  completed_at : Option Nat := none
deriving DecidableEq

/-- One `update_release_progress(release_id, **kwargs)` call's keyword
fields: `some v` models a supplied keyword, `none` an absent one. -/
structure ProgressPatch where
  status : Option String := none
  progress_percentage : Option Rat := none
  current_step : Option String := none
  total_images : Option Nat := none
  processed_images : Option Nat := none
  generated_images : Option Nat := none
  error_message : Option String := none
  started_at : Option Nat := none
  completed_at : Option Nat := none
deriving DecidableEq

/-- The fresh entry created on first reference of a release id. -/
def freshProgress (release_id : String) : ReleaseProgress :=
  { release_id := release_id
    status := "pending"
    progress_percentage := 0
    current_step := "initializing"
    total_images := 0
    processed_images := 0
    generated_images := 0 }

/-- The field-by-field merge (`for key, value in kwargs.items(): setattr`). -/
def mergePatch (p : ReleaseProgress) (patch : ProgressPatch) : ReleaseProgress :=
  { p with
    status := patch.status.getD p.status
    progress_percentage := patch.progress_percentage.getD p.progress_percentage
    current_step := patch.current_step.getD p.current_step
    total_images := patch.total_images.getD p.total_images
    processed_images := patch.processed_images.getD p.processed_images
    generated_images := patch.generated_images.getD p.generated_images
    error_message := match patch.error_message with
      | some m => some m
      | none => p.error_message
    started_at := match patch.started_at with
      | some t => some t
      | none => p.started_at
    completed_at := match patch.completed_at with
      | some t => some t
      | none => p.completed_at }

/-- Percentage recomputation performed at the end of every update:
`if progress.total_images > 0: percentage = processed/total*100`. -/
def recompute (p : ReleaseProgress) : ReleaseProgress :=
  if p.total_images > 0 then
    { p with progress_percentage :=
        ((p.processed_images : Rat) / (p.total_images : Rat)) * 100 }
  else p

/-- The process-wide progress map, keyed by release id. -/
abbrev ProgressMap := List (String × ReleaseProgress)

def pmGet (pm : ProgressMap) (release_id : String) : Option ReleaseProgress :=
  List.lookup release_id pm

def pmErase (pm : ProgressMap) (release_id : String) : ProgressMap :=
  pm.filter fun e => e.1 != release_id

def pmSet (pm : ProgressMap) (release_id : String) (p : ReleaseProgress) : ProgressMap :=
  (release_id, p) :: pmErase pm release_id

/-- `ReleaseController.update_release_progress`. -/
def update_release_progress (pm : ProgressMap) (release_id : String)
    (patch : ProgressPatch) : ProgressMap :=
  let p0 := (pmGet pm release_id).getD (freshProgress release_id)
  pmSet pm release_id (recompute (mergePatch p0 patch))

@[simp] theorem pmGet_pmSet_self (pm : ProgressMap) (release_id : String)
    (p : ReleaseProgress) : pmGet (pmSet pm release_id p) release_id = some p := by
  simp [pmGet, pmSet, List.lookup]

theorem pmGet_update (pm : ProgressMap) (release_id : String) (patch : ProgressPatch) :
    pmGet (update_release_progress pm release_id patch) release_id =
      some (recompute (mergePatch
        ((pmGet pm release_id).getD (freshProgress release_id)) patch)) := by
  simp [update_release_progress]

/-- C5 counterexample: the claim as stated fails on the code.  With
`total = 0` an explicitly supplied percentage keyword is kept, so the entry
shows 42 instead of 0; and an update that lowers `processed_images` while
the state is `processing` strictly decreases the percentage. -/
theorem update_release_progress_counterexample :
    ((pmGet (update_release_progress [] "r"
        { progress_percentage := some 42 }) "r").map
          ReleaseProgress.progress_percentage = some 42 ∧
      (42 : Rat) ≠ 0) ∧
    ((pmGet (update_release_progress [] "r"
        { status := some "processing", total_images := some 10,
          processed_images := some 5 }) "r").map
          ReleaseProgress.progress_percentage =
        some (((5 : Nat) : Rat) / ((10 : Nat) : Rat) * 100) ∧
      (pmGet (update_release_progress [] "r"
        { status := some "processing", total_images := some 10,
          processed_images := some 5 }) "r").map ReleaseProgress.status =
        some "processing" ∧
      (pmGet (update_release_progress (update_release_progress [] "r"
        { status := some "processing", total_images := some 10,
          processed_images := some 5 }) "r"
        { processed_images := some 2 }) "r").map
          ReleaseProgress.progress_percentage =
        some (((2 : Nat) : Rat) / ((10 : Nat) : Rat) * 100) ∧
      (pmGet (update_release_progress (update_release_progress [] "r"
        { status := some "processing", total_images := some 10,
          processed_images := some 5 }) "r"
        { processed_images := some 2 }) "r").map ReleaseProgress.status =
        some "processing" ∧
      ((2 : Nat) : Rat) / ((10 : Nat) : Rat) * 100 <
        ((5 : Nat) : Rat) / ((10 : Nat) : Rat) * 100) := by
  refine ⟨⟨rfl, by norm_num⟩, rfl, rfl, rfl, rfl, by norm_num⟩

/-- C5 as amended: after every update the stored percentage equals
`100 * processed / total` computed from the entry's own (just-merged) count
fields whenever `total > 0` — the merge and the recomputation commit as one
unit, so a reader never sees a percentage from stale counts; when
`total = 0` the percentage is the patch's explicit value if supplied,
otherwise the previous value (0 for a fresh entry). -/
theorem update_release_progress_percentage (pm : ProgressMap)
    (release_id : String) (patch : ProgressPatch) :
    ∀ p, pmGet (update_release_progress pm release_id patch) release_id = some p →
      (p.total_images > 0 →
        p.progress_percentage =
          ((p.processed_images : Rat) / (p.total_images : Rat)) * 100) ∧
      (p.total_images = 0 →
        p.progress_percentage = patch.progress_percentage.getD
          ((pmGet pm release_id).getD
            (freshProgress release_id)).progress_percentage) := by
  intro p hp
  rw [pmGet_update] at hp
  set q := mergePatch ((pmGet pm release_id).getD (freshProgress release_id)) patch
    with hq
  injection hp with hp
  subst hp
  constructor
  · intro hpos
    rw [recompute] at hpos ⊢
    by_cases h : q.total_images > 0
    · simp only [if_pos h]
    · rw [if_neg h] at hpos; exact absurd hpos h
  · intro hzero
    rw [recompute] at hzero ⊢
    by_cases h : q.total_images > 0
    · rw [if_pos h] at hzero; simp only at hzero; omega
    · rw [if_neg h]
      have : q.progress_percentage = patch.progress_percentage.getD
          ((pmGet pm release_id).getD
            (freshProgress release_id)).progress_percentage := by
        rw [hq]; rfl
      exact this

/-- Witness for C5's amended theorem at a concrete update. -/
theorem update_release_progress_percentage_witness :
    (((4 : Nat) : Rat) / ((8 : Nat) : Rat)) * 100 =
      (((4 : Nat) : Rat) / ((8 : Nat) : Rat)) * 100 ∧
    ((42 : Rat) = 42) := by
  constructor
  · have h := (update_release_progress_percentage [] "r"
      { total_images := some 8, processed_images := some 4 }) _ (pmGet_update _ _ _)
    exact h.1 (by decide)
  · have h := (update_release_progress_percentage [] "r"
      { progress_percentage := some 42 }) _ (pmGet_update _ _ _)
    exact h.2 (by rfl)

/-! ## Release Orchestrator (`generate_release` and the persistence calls)

The persistence store and the in-memory progress map are threaded
explicitly.  Collaborator outcomes that are external to the controller —
the generated uuid, clock ticks, commit success or failure, filesystem
existence probes, the augmentation executor's output and the export
writer's outcome — are supplied by an `Env` record; `Except` models raised
exceptions. -/

/-- An `ImageTransformation` row. -/
structure TransRec where
  id : String
  transformation_type : String
  parameters : String
  is_enabled : Bool
  order_index : Int
  release_version : String
  status : String
  release_id : Option String := none
deriving DecidableEq

/-- An `Image` row / loaded image record. -/
structure ImageRec where
  id : String
  filename : String
  file_path : String
  dataset_id : String
  split_section : Option String := none
  split_type : String
  width : Nat
  height : Nat
deriving DecidableEq

/-- A `Release` row.  Count and path fields are unset until the pipeline
reaches the corresponding update. -/
structure ReleaseRec where
  id : String
  project_id : Int
  name : String
  description : String
  export_format : String
  task_type : String
  datasets_used : List String
  images_per_original : Nat
  sampling_strategy : String
  output_format : String
  include_original : Bool
  created_at : Nat
  total_original_images : Option Nat := none
  total_augmented_images : Option Nat := none
  final_image_count : Option Nat := none
  model_path : Option String := none
deriving DecidableEq

/-- The persistence store visible to the controller. -/
structure DB where
  releases : List ReleaseRec
  transformations : List TransRec
  images : List ImageRec
deriving DecidableEq

/-- `ReleaseConfig`. -/
structure ReleaseConfig where
  release_name : String
  description : String
  project_id : Int
  dataset_ids : List String
  export_format : String := "yolo_detection"
  task_type : String := "object_detection"
  images_per_original : Nat := 4
  sampling_strategy : String := "intelligent"
  output_format : String := "jpg"
  include_original : Bool := true

/-- External outcomes for one `generate_release` invocation. -/
structure Env where
  new_release_id : String
  now : Nat
  create_commit : Except String Unit
  trans_query_error : Option String := none
  image_query_error : Option String := none
  path_exists : String → Bool
  process_results : GenerationResults
  counts_commit : Except String Unit
  mark_commit : Except String Unit
  export_result : Except String String
  export_commit : Except String Unit

/-- The release row built by `create_release_record`. -/
def newReleaseRec (env : Env) (config : ReleaseConfig) : ReleaseRec :=
  { id := env.new_release_id
    project_id := config.project_id
    name := config.release_name
    description := config.description
    export_format := config.export_format
    task_type := config.task_type
    datasets_used := config.dataset_ids
    images_per_original := config.images_per_original
    sampling_strategy := config.sampling_strategy
    output_format := config.output_format
    include_original := config.include_original
    created_at := env.now }

/-- `ReleaseController.create_release_record`: adds the row and commits; a
commit error rolls the pending row back and re-raises. -/
def create_release_record (env : Env) (db : DB) (config : ReleaseConfig) :
    Except String String × DB :=
  match env.create_commit with
  | .ok _ => (.ok env.new_release_id,
      { db with releases := db.releases ++ [newReleaseRec env config] })
  | .error e => (.error e, db)

/-- The query in `load_pending_transformations`: enabled+pending rows of
the requested version, ordered by `order_index`. -/
def pendingFilter (db : DB) (release_version : String) : List TransRec :=
  List.insertionSort (fun a b => a.order_index ≤ b.order_index)
    (db.transformations.filter fun t =>
      t.release_version == release_version && t.status == "PENDING" && t.is_enabled)

/-- `ReleaseController.load_pending_transformations`: a raised query error
is caught and an empty list returned. -/
def load_pending_transformations (env : Env) (db : DB) (release_version : String) :
    List TransRec :=
  match env.trans_query_error with
  | some _ => []
  | none => pendingFilter db release_version

/-- The query in `get_dataset_images`: images of the requested datasets
whose split type is `"dataset"`, with `split_section` defaulted to
`"train"` in the returned records. -/
def datasetImagesFilter (db : DB) (dataset_ids : List String) : List ImageRec :=
  (db.images.filter fun im =>
      dataset_ids.contains im.dataset_id && im.split_type == "dataset").map
    fun im => { im with split_section := some (im.split_section.getD "train") }

/-- `ReleaseController.get_dataset_images`: a raised query error is caught
and an empty list returned. -/
def get_dataset_images (env : Env) (db : DB) (dataset_ids : List String) :
    List ImageRec :=
  match env.image_query_error with
  | some _ => []
  | none => datasetImagesFilter db dataset_ids

/-- Posix `os.path.isabs`: the path begins with a slash. -/
def isAbsPath (p : String) : Bool :=
  match p.data with
  | [] => false
  | c :: _ => c == '/'

/-- `ReleaseController._resolve_image_path`: absolute paths are returned
unchanged, otherwise the first existing candidate under `.`, `projects`,
`uploads` is used, else the original path. -/
def resolve_image_path (env : Env) (relative_path : String) : String :=
  if isAbsPath relative_path then relative_path
  else if env.path_exists ("./" ++ relative_path) then "./" ++ relative_path
  else if env.path_exists ("projects/" ++ relative_path) then "projects/" ++ relative_path
  else if env.path_exists ("uploads/" ++ relative_path) then "uploads/" ++ relative_path
  else relative_path

/-- The image-path preparation loop of `generate_release`: non-existing
resolved paths are skipped with a warning. -/
def resolvedPaths (env : Env) (image_records : List ImageRec) : List String :=
  image_records.filterMap fun im =>
    let image_path := resolve_image_path env im.file_path
    if env.path_exists image_path then some image_path else none

/-- `ReleaseController.mark_transformations_completed`: sets status
`COMPLETED` and links the release; a commit error rolls back, is logged,
and is NOT re-raised. -/
def mark_transformations_completed (env : Env) (db : DB)
    (transformation_ids : List String) (release_id : String) : DB :=
  match env.mark_commit with
  | .ok _ => { db with transformations := db.transformations.map fun t =>
      if transformation_ids.contains t.id then
        { t with status := "COMPLETED", release_id := some release_id }
      else t }
  | .error _ => db

/-- `ReleaseController._generate_export_files`: any error raised while
producing the export artifact is caught and logged, and an absent path is
returned instead. -/
def generate_export_files (env : Env) : Option String :=
  match env.export_result with
  | .ok p => some p
  | .error _ => none

/-- The post-augmentation record update in `generate_release`
(`release.total_original_images = ...; db.commit()`). -/
def updateReleaseCounts (env : Env) (db : DB) (release_id : String)
    (n_orig n_gen : Nat) (config : ReleaseConfig) (output_dir : String) :
    Except String DB :=
  match db.releases.find? (fun r => r.id == release_id) with
  | none => .ok db
  | some _ =>
    match env.counts_commit with
    | .error e => .error e
    | .ok _ => .ok { db with releases := db.releases.map fun r =>
        if r.id == release_id then
          { r with total_original_images := some n_orig
                   total_augmented_images := some n_gen
                   final_image_count :=
                     some (n_gen + (if config.include_original then n_orig else 0))
                   model_path := some output_dir }
        else r }

/-- The post-export record update in `generate_release`
(`if release and export_path: ...; db.commit()`). -/
def updateReleaseExport (env : Env) (db : DB) (release_id : String)
    (export_path : Option String) (fmt : String) (config : ReleaseConfig) :
    Except String DB :=
  match db.releases.find? (fun r => r.id == release_id) with
  | none => .ok db
  | some _ =>
    match export_path with
    | none => .ok db
    | some p =>
      match env.export_commit with
      | .error e => .error e
      | .ok _ => .ok { db with releases := db.releases.map fun r =>
          if r.id == release_id then
            { r with model_path := some p, export_format := fmt,
                     task_type := config.task_type }
          else r }

/-- The progress patch applied when the surrounding `except` block marks a
release failed. -/
def failPatch (now : Nat) (msg : String) : ProgressPatch :=
  { status := some "failed", error_message := some ("Failed to generate release: " ++ msg),
    completed_at := some now }

/-- `ReleaseController.generate_release`: the full pipeline.  The returned
`Except` carries the re-raised exception's message; the handler stores the
prefixed message in the progress entry (when a release id exists) before
re-raising. -/
def generate_release (env : Env) (db : DB) (pm : ProgressMap)
    (config : ReleaseConfig) (release_version : String) :
    Except String String × DB × ProgressMap :=
  match create_release_record env db config with
  | (.error e, db1) => (.error e, db1, pm)
  | (.ok release_id, db1) =>
    let pm1 := update_release_progress pm release_id
      { status := some "processing", current_step := some "loading_data",
        started_at := some env.now }
    let transformation_records := load_pending_transformations env db1 release_version
    if transformation_records = [] then
      let msg := "No pending transformations found for version " ++ release_version
      (.error msg, db1, update_release_progress pm1 release_id (failPatch env.now msg))
    else
      let image_records := get_dataset_images env db1 config.dataset_ids
      if image_records = [] then
        let msg := "No images found in datasets"
        (.error msg, db1, update_release_progress pm1 release_id (failPatch env.now msg))
      else
        let pm2 := update_release_progress pm1 release_id
          { total_images := some image_records.length,
            current_step := some "generating_configurations" }
        let pm3 := update_release_progress pm2 release_id
          { current_step := some "processing_images" }
        let output_dir := "backend/releases/" ++ release_id
        let image_paths := resolvedPaths env image_records
        let all_results := env.process_results
        let total_generated := (all_results.map fun r => r.2.length).sum
        let pm4 := update_release_progress pm3 release_id
          { processed_images := some image_paths.length,
            generated_images := some total_generated,
            current_step := some "finalizing" }
        match updateReleaseCounts env db1 release_id image_paths.length
            total_generated config output_dir with
        | .error e =>
            (.error e, db1, update_release_progress pm4 release_id (failPatch env.now e))
        | .ok db2 =>
          let db3 := mark_transformations_completed env db2
            (transformation_records.map fun t => t.id) release_id
          let optimal_export_format := select_optimal_export_format all_results
            config.export_format config.task_type
          let export_path := generate_export_files env
          match updateReleaseExport env db3 release_id export_path
              optimal_export_format config with
          | .error e =>
              (.error e, db3, update_release_progress pm4 release_id (failPatch env.now e))
          | .ok db4 =>
            let pm5 := update_release_progress pm4 release_id
              { status := some "completed", progress_percentage := some 100,
                current_step := some "completed", completed_at := some env.now }
            (.ok release_id, db4, pm5)

@[simp] theorem recompute_status (p : ReleaseProgress) :
    (recompute p).status = p.status := by
  rw [recompute]; split <;> rfl

@[simp] theorem recompute_current_step (p : ReleaseProgress) :
    (recompute p).current_step = p.current_step := by
  rw [recompute]; split <;> rfl

@[simp] theorem recompute_total (p : ReleaseProgress) :
    (recompute p).total_images = p.total_images := by
  rw [recompute]; split <;> rfl

@[simp] theorem recompute_processed (p : ReleaseProgress) :
    (recompute p).processed_images = p.processed_images := by
  rw [recompute]; split <;> rfl

@[simp] theorem recompute_error_message (p : ReleaseProgress) :
    (recompute p).error_message = p.error_message := by
  rw [recompute]; split <;> rfl

theorem recompute_pct_pos (p : ReleaseProgress) (h : p.total_images > 0) :
    (recompute p).progress_percentage =
      ((p.processed_images : Rat) / (p.total_images : Rat)) * 100 := by
  rw [recompute, if_pos h]

theorem recompute_pct_zero (p : ReleaseProgress) (h : p.total_images = 0) :
    (recompute p).progress_percentage = p.progress_percentage := by
  rw [recompute, if_neg (by omega)]

theorem find?_append_singleton {α} (p : α → Bool) (l : List α) (a : α)
    (ha : p a = true) : ∃ x, ((l ++ [a]).find? p) = some x := by
  induction l with
  | nil => exact ⟨a, by simp [List.find?, ha]⟩
  | cons b t ih =>
    by_cases hb : p b = true
    · exact ⟨b, by simp [List.find?, hb]⟩
    · obtain ⟨x, hx⟩ := ih
      refine ⟨x, ?_⟩
      simpa [List.find?, hb] using hx

theorem find?_isSome_of_mem {α} (p : α → Bool) (l : List α) (a : α)
    (ha : a ∈ l) (hpa : p a = true) : ∃ x, l.find? p = some x := by
  induction l with
  | nil => cases ha
  | cons b t ih =>
    by_cases hb : p b = true
    · exact ⟨b, by simp [List.find?, hb]⟩
    · rcases List.mem_cons.mp ha with h | h
      · subst h; exact absurd hpa hb
      · obtain ⟨x, hx⟩ := ih h
        refine ⟨x, ?_⟩
        simpa [List.find?, hb] using hx

theorem pmGet_update_of_get (pm : ProgressMap) (rid : String) (patch : ProgressPatch)
    (q : ReleaseProgress) (h : pmGet pm rid = some q) :
    pmGet (update_release_progress pm rid patch) rid =
      some (recompute (mergePatch q patch)) := by
  rw [pmGet_update, h, Option.getD_some]

/-- The final five-update progress chain of a successful run ends in a
`completed` entry whose percentage is recomputed from the counts. -/
theorem final_progress_chain (pm : ProgressMap) (rid : String) (now : Nat)
    (n r g : Nat) (hn : 0 < n) :
    ∃ p, pmGet (update_release_progress (update_release_progress
        (update_release_progress (update_release_progress
          (update_release_progress pm rid
            { status := some "processing", current_step := some "loading_data",
              started_at := some now }) rid
            { total_images := some n, current_step := some "generating_configurations" }) rid
            { current_step := some "processing_images" }) rid
            { processed_images := some r, generated_images := some g,
              current_step := some "finalizing" }) rid
            { status := some "completed", progress_percentage := some 100,
              current_step := some "completed", completed_at := some now }) rid = some p ∧
      p.status = "completed" ∧ p.current_step = "completed" ∧
      p.total_images = n ∧ p.processed_images = r ∧
      p.progress_percentage = ((r : Rat) / (n : Rat)) * 100 := by
  obtain ⟨q1, hq1⟩ : ∃ q, pmGet (update_release_progress pm rid
      { status := some "processing", current_step := some "loading_data",
        started_at := some now }) rid = some q := ⟨_, pmGet_update _ _ _⟩
  have hq2 := pmGet_update_of_get _ rid
    { total_images := some n, current_step := some "generating_configurations" } _ hq1
  have hq3 := pmGet_update_of_get _ rid
    { current_step := some "processing_images" } _ hq2
  have hq4 := pmGet_update_of_get _ rid
    { processed_images := some r, generated_images := some g,
      current_step := some "finalizing" } _ hq3
  have hq5 := pmGet_update_of_get _ rid
    { status := some "completed", progress_percentage := some 100,
      current_step := some "completed", completed_at := some now } _ hq4
  refine ⟨_, hq5, ?_, ?_, ?_, ?_, ?_⟩
  · simp [mergePatch]
  · simp [mergePatch]
  · simp [mergePatch]
  · simp [mergePatch]
  · rw [recompute_pct_pos _ (by simp [mergePatch, hn])]
    simp [mergePatch]

theorem generate_release_create_error (env : Env) (db : DB) (pm : ProgressMap)
    (config : ReleaseConfig) (version : String) (e : String)
    (hc : env.create_commit = .error e) :
    generate_release env db pm config version = (.error e, db, pm) := by
  rw [generate_release, create_release_record, hc]

theorem generate_release_no_trans (env : Env) (db : DB) (pm : ProgressMap)
    (config : ReleaseConfig) (version : String)
    (hc : env.create_commit = .ok ())
    (hload : load_pending_transformations env db version = []) :
    generate_release env db pm config version =
      (.error ("No pending transformations found for version " ++ version),
       { db with releases := db.releases ++ [newReleaseRec env config] },
       update_release_progress (update_release_progress pm env.new_release_id
         { status := some "processing", current_step := some "loading_data",
           started_at := some env.now }) env.new_release_id
         (failPatch env.now ("No pending transformations found for version " ++ version))) := by
  have hload1 : load_pending_transformations env
      { db with releases := db.releases ++ [newReleaseRec env config] } version = [] :=
    hload
  simp only [generate_release, create_release_record, hc, hload1, if_true]

theorem generate_release_no_images (env : Env) (db : DB) (pm : ProgressMap)
    (config : ReleaseConfig) (version : String)
    (hc : env.create_commit = .ok ())
    (hload : load_pending_transformations env db version ≠ [])
    (himgs : get_dataset_images env db config.dataset_ids = []) :
    generate_release env db pm config version =
      (.error "No images found in datasets",
       { db with releases := db.releases ++ [newReleaseRec env config] },
       update_release_progress (update_release_progress pm env.new_release_id
         { status := some "processing", current_step := some "loading_data",
           started_at := some env.now }) env.new_release_id
         (failPatch env.now "No images found in datasets")) := by
  have hload1 : ¬ load_pending_transformations env
      { db with releases := db.releases ++ [newReleaseRec env config] } version = [] :=
    hload
  have himgs1 : get_dataset_images env
      { db with releases := db.releases ++ [newReleaseRec env config] }
      config.dataset_ids = [] := himgs
  simp only [generate_release, create_release_record, hc, if_neg hload1, himgs1, if_true]

theorem updateReleaseExport_error_inv (env : Env) (db : DB) (rid : String)
    (path : Option String) (fmt : String) (config : ReleaseConfig) (e : String)
    (h : updateReleaseExport env db rid path fmt config = .error e) :
    env.export_commit = .error e ∧ ∃ p, path = some p := by
  rw [updateReleaseExport.eq_def] at h
  cases hf : db.releases.find? fun r => r.id == rid with
  | none => rw [hf] at h; cases h
  | some r =>
    rw [hf] at h
    cases path with
    | none => cases h
    | some p =>
      cases hcm : env.export_commit with
      | error e2 =>
        rw [hcm] at h
        cases h
        exact ⟨rfl, p, rfl⟩
      | ok u => rw [hcm] at h; cases h

theorem updateReleaseExport_ok_inv (env : Env) (db : DB) (rid : String)
    (path : Option String) (fmt : String) (config : ReleaseConfig) (db4 : DB)
    (h : updateReleaseExport env db rid path fmt config = .ok db4) :
    db4.transformations = db.transformations := by
  rw [updateReleaseExport.eq_def] at h
  cases hf : db.releases.find? fun r => r.id == rid with
  | none => rw [hf] at h; cases h; rfl
  | some r =>
    rw [hf] at h
    cases path with
    | none => cases h; rfl
    | some p =>
      cases hcm : env.export_commit with
      | error e2 => rw [hcm] at h; cases h
      | ok u => rw [hcm] at h; cases h; rfl

theorem generate_release_success (env : Env) (db : DB) (pm : ProgressMap)
    (config : ReleaseConfig) (version : String)
    (hc : env.create_commit = .ok ())
    (hload : load_pending_transformations env db version ≠ [])
    (himgs : get_dataset_images env db config.dataset_ids ≠ [])
    (hcounts : env.counts_commit = .ok ())
    (hstage : (∃ e, env.export_result = .error e) ∨ env.export_commit = .ok ()) :
    (generate_release env db pm config version).1 = .ok env.new_release_id ∧
    (generate_release env db pm config version).2.2 =
      update_release_progress (update_release_progress (update_release_progress
        (update_release_progress (update_release_progress pm env.new_release_id
          { status := some "processing", current_step := some "loading_data",
            started_at := some env.now }) env.new_release_id
          { total_images := some (get_dataset_images env db config.dataset_ids).length,
            current_step := some "generating_configurations" }) env.new_release_id
          { current_step := some "processing_images" }) env.new_release_id
          { processed_images :=
              some (resolvedPaths env (get_dataset_images env db config.dataset_ids)).length,
            generated_images := some ((env.process_results.map fun r => r.2.length).sum),
            current_step := some "finalizing" }) env.new_release_id
          { status := some "completed", progress_percentage := some 100,
            current_step := some "completed", completed_at := some env.now } := by
  have hload1 : ¬ load_pending_transformations env
      { db with releases := db.releases ++ [newReleaseRec env config] } version = [] :=
    hload
  have himgs1 : ¬ get_dataset_images env
      { db with releases := db.releases ++ [newReleaseRec env config] }
      config.dataset_ids = [] := himgs
  obtain ⟨r0, hfind⟩ : ∃ x, (db.releases ++ [newReleaseRec env config]).find?
      (fun r => r.id == env.new_release_id) = some x :=
    find?_append_singleton _ _ _ (by simp [newReleaseRec])
  have hpath : generate_export_files env = none ∨ env.export_commit = .ok () := by
    rcases hstage with ⟨e, he⟩ | h
    · exact Or.inl (by simp [generate_export_files, he])
    · exact Or.inr h
  simp only [generate_release, create_release_record, hc, if_neg hload1, if_neg himgs1,
    updateReleaseCounts, hfind, hcounts]
  split
  · next e heq =>
    exfalso
    obtain ⟨hcm, p, hp⟩ := updateReleaseExport_error_inv _ _ _ _ _ _ _ heq
    rcases hpath with hnone | hok
    · rw [hnone] at hp; cases hp
    · rw [hok] at hcm; cases hcm
  · next db4 heq =>
    exact ⟨rfl, rfl⟩

/-- The two-update progress chain of a validation failure leaves a failed
entry with the prefixed message and percentage still 0. -/
theorem fail_chain_fields (pm : ProgressMap) (rid : String) (now : Nat) (msg : String)
    (hfresh : pmGet pm rid = none) :
    ∃ p, pmGet (update_release_progress (update_release_progress pm rid
        { status := some "processing", current_step := some "loading_data",
          started_at := some now }) rid (failPatch now msg)) rid = some p ∧
      p.status = "failed" ∧
      p.error_message = some ("Failed to generate release: " ++ msg) ∧
      p.progress_percentage = 0 := by
  have h1 := pmGet_update pm rid
    { status := some "processing", current_step := some "loading_data",
      started_at := some now }
  rw [hfresh] at h1
  have h2 := pmGet_update_of_get _ rid (failPatch now msg) _ h1
  refine ⟨_, h2, ?_, ?_, ?_⟩
  · simp [mergePatch, failPatch]
  · simp [mergePatch, failPatch]
  · simp [recompute, mergePatch, failPatch, freshProgress]

/-- The five-update chain ending in a failure patch leaves a failed entry
with the prefixed message. -/
theorem fail_after_chain_fields (pm : ProgressMap) (rid : String) (now : Nat)
    (n r g : Nat) (msg : String) :
    ∃ p, pmGet (update_release_progress (update_release_progress
        (update_release_progress (update_release_progress
          (update_release_progress pm rid
            { status := some "processing", current_step := some "loading_data",
              started_at := some now }) rid
            { total_images := some n, current_step := some "generating_configurations" }) rid
            { current_step := some "processing_images" }) rid
            { processed_images := some r, generated_images := some g,
              current_step := some "finalizing" }) rid
            (failPatch now msg)) rid = some p ∧
      p.status = "failed" ∧
      p.error_message = some ("Failed to generate release: " ++ msg) := by
  obtain ⟨q1, hq1⟩ : ∃ q, pmGet (update_release_progress pm rid
      { status := some "processing", current_step := some "loading_data",
        started_at := some now }) rid = some q := ⟨_, pmGet_update _ _ _⟩
  have hq2 := pmGet_update_of_get _ rid
    { total_images := some n, current_step := some "generating_configurations" } _ hq1
  have hq3 := pmGet_update_of_get _ rid
    { current_step := some "processing_images" } _ hq2
  have hq4 := pmGet_update_of_get _ rid
    { processed_images := some r, generated_images := some g,
      current_step := some "finalizing" } _ hq3
  have hq5 := pmGet_update_of_get _ rid (failPatch now msg) _ hq4
  refine ⟨_, hq5, ?_, ?_⟩
  · simp [mergePatch, failPatch]
  · simp [mergePatch, failPatch]

theorem generate_release_counts_error (env : Env) (db : DB) (pm : ProgressMap)
    (config : ReleaseConfig) (version : String) (e : String)
    (hc : env.create_commit = .ok ())
    (hload : load_pending_transformations env db version ≠ [])
    (himgs : get_dataset_images env db config.dataset_ids ≠ [])
    (hcounts : env.counts_commit = .error e) :
    (generate_release env db pm config version).1 = .error e ∧
    (generate_release env db pm config version).2.1 =
      { db with releases := db.releases ++ [newReleaseRec env config] } ∧
    ∃ p, pmGet (generate_release env db pm config version).2.2
        env.new_release_id = some p ∧
      p.status = "failed" ∧
      p.error_message = some ("Failed to generate release: " ++ e) := by
  have hload1 : ¬ load_pending_transformations env
      { db with releases := db.releases ++ [newReleaseRec env config] } version = [] :=
    hload
  have himgs1 : ¬ get_dataset_images env
      { db with releases := db.releases ++ [newReleaseRec env config] }
      config.dataset_ids = [] := himgs
  obtain ⟨r0, hfind⟩ : ∃ x, (db.releases ++ [newReleaseRec env config]).find?
      (fun r => r.id == env.new_release_id) = some x :=
    find?_append_singleton _ _ _ (by simp [newReleaseRec])
  simp only [generate_release, create_release_record, hc, if_neg hload1, if_neg himgs1,
    updateReleaseCounts, hfind, hcounts]
  refine ⟨by trivial, by trivial, fail_after_chain_fields _ _ _ _ _ _ _⟩

theorem mark_releases (env : Env) (db : DB) (ids : List String) (rid : String) :
    (mark_transformations_completed env db ids rid).releases = db.releases := by
  rw [mark_transformations_completed.eq_def]
  split <;> rfl

theorem find?_map_id_isSome (l : List ReleaseRec) (g : ReleaseRec → ReleaseRec)
    (hg : ∀ r, (g r).id = r.id) (rid : String) (a : ReleaseRec) (ha : a ∈ l)
    (haid : (a.id == rid) = true) :
    (l.map g).find? (fun r => r.id == rid) ≠ none := by
  intro hnone
  rw [List.find?_eq_none] at hnone
  exact hnone (g a) (List.mem_map_of_mem g ha) (by rw [hg]; exact haid)

theorem updateReleaseExport_okSome_inv (env : Env) (db : DB) (rid : String)
    (p : String) (fmt : String) (config : ReleaseConfig) (db4 : DB)
    (h : updateReleaseExport env db rid (some p) fmt config = .ok db4)
    (hcm : ∃ e, env.export_commit = .error e) :
    db.releases.find? (fun r => r.id == rid) = none := by
  rw [updateReleaseExport.eq_def] at h
  cases hf : db.releases.find? fun r => r.id == rid with
  | none => rfl
  | some r =>
    rw [hf] at h
    obtain ⟨e, he⟩ := hcm
    rw [he] at h
    cases h

theorem generate_release_mark_swallowed (env : Env) (db : DB) (pm : ProgressMap)
    (config : ReleaseConfig) (version : String) (e : String)
    (hc : env.create_commit = .ok ())
    (hload : load_pending_transformations env db version ≠ [])
    (himgs : get_dataset_images env db config.dataset_ids ≠ [])
    (hcounts : env.counts_commit = .ok ())
    (hm : env.mark_commit = .error e)
    (hstage : (∃ e2, env.export_result = .error e2) ∨ env.export_commit = .ok ()) :
    (generate_release env db pm config version).1 = .ok env.new_release_id ∧
    (generate_release env db pm config version).2.1.transformations =
      db.transformations := by
  have hload1 : ¬ load_pending_transformations env
      { db with releases := db.releases ++ [newReleaseRec env config] } version = [] :=
    hload
  have himgs1 : ¬ get_dataset_images env
      { db with releases := db.releases ++ [newReleaseRec env config] }
      config.dataset_ids = [] := himgs
  obtain ⟨r0, hfind⟩ : ∃ x, (db.releases ++ [newReleaseRec env config]).find?
      (fun r => r.id == env.new_release_id) = some x :=
    find?_append_singleton _ _ _ (by simp [newReleaseRec])
  have hpath : generate_export_files env = none ∨ env.export_commit = .ok () := by
    rcases hstage with ⟨e2, he⟩ | h
    · exact Or.inl (by simp [generate_export_files, he])
    · exact Or.inr h
  simp only [generate_release, create_release_record, hc, if_neg hload1, if_neg himgs1,
    updateReleaseCounts, hfind, hcounts, mark_transformations_completed, hm]
  split
  · next e2 heq =>
    exfalso
    obtain ⟨hcm, p, hp⟩ := updateReleaseExport_error_inv _ _ _ _ _ _ _ heq
    rcases hpath with hnone | hok
    · rw [hnone] at hp; cases hp
    · rw [hok] at hcm; cases hcm
  · next db4 heq =>
    have h3 := updateReleaseExport_ok_inv _ _ _ _ _ _ _ heq
    exact ⟨rfl, h3.trans rfl⟩

theorem generate_release_export_commit_error (env : Env) (db : DB) (pm : ProgressMap)
    (config : ReleaseConfig) (version : String) (e path : String)
    (hc : env.create_commit = .ok ())
    (hload : load_pending_transformations env db version ≠ [])
    (himgs : get_dataset_images env db config.dataset_ids ≠ [])
    (hcounts : env.counts_commit = .ok ())
    (hexp : env.export_result = .ok path)
    (hecommit : env.export_commit = .error e) :
    (generate_release env db pm config version).1 = .error e ∧
    ∃ p, pmGet (generate_release env db pm config version).2.2
        env.new_release_id = some p ∧
      p.status = "failed" ∧
      p.error_message = some ("Failed to generate release: " ++ e) := by
  have hload1 : ¬ load_pending_transformations env
      { db with releases := db.releases ++ [newReleaseRec env config] } version = [] :=
    hload
  have himgs1 : ¬ get_dataset_images env
      { db with releases := db.releases ++ [newReleaseRec env config] }
      config.dataset_ids = [] := himgs
  obtain ⟨r0, hfind⟩ : ∃ x, (db.releases ++ [newReleaseRec env config]).find?
      (fun r => r.id == env.new_release_id) = some x :=
    find?_append_singleton _ _ _ (by simp [newReleaseRec])
  have hgef : generate_export_files env = some path := by
    simp [generate_export_files, hexp]
  simp only [generate_release, create_release_record, hc, if_neg hload1, if_neg himgs1,
    updateReleaseCounts, hfind, hcounts, hgef]
  split
  · next e2 heq =>
    obtain ⟨hcm, q, hq⟩ := updateReleaseExport_error_inv _ _ _ _ _ _ _ heq
    rw [hecommit] at hcm
    injection hcm with he2
    subst he2
    exact ⟨rfl, fail_after_chain_fields _ _ _ _ _ _ _⟩
  · next db4 heq =>
    exfalso
    have hfnone := updateReleaseExport_okSome_inv _ _ _ _ _ _ _ heq ⟨e, hecommit⟩
    rw [mark_releases] at hfnone
    exact find?_map_id_isSome _ _ (by intro r; split <;> rfl)
      env.new_release_id (newReleaseRec env config) (by simp)
      (by simp [newReleaseRec]) hfnone

/-- C3: if export artifact generation raises, the failure is absorbed in
the export stage (`generate_export_files` returns an absent path), and
`generate_release` still returns the release id with terminal progress
state `completed`, step `"completed"` — so a release is reported completed
with no export artifact. -/
theorem export_failure_release_completed (env : Env) (db : DB) (pm : ProgressMap)
    (config : ReleaseConfig) (version : String) (e : String)
    (hc : env.create_commit = .ok ())
    (hload : load_pending_transformations env db version ≠ [])
    (himgs : get_dataset_images env db config.dataset_ids ≠ [])
    (hcounts : env.counts_commit = .ok ())
    (hexp : env.export_result = .error e) :
    generate_export_files env = none ∧
    (generate_release env db pm config version).1 = .ok env.new_release_id ∧
    ∃ p, pmGet (generate_release env db pm config version).2.2
        env.new_release_id = some p ∧
      p.status = "completed" ∧ p.current_step = "completed" := by
  have hs := generate_release_success env db pm config version hc hload himgs hcounts
    (Or.inl ⟨e, hexp⟩)
  refine ⟨by simp [generate_export_files, hexp], hs.1, ?_⟩
  rw [hs.2]
  have hn : 0 < (get_dataset_images env db config.dataset_ids).length :=
    List.length_pos.mpr himgs
  obtain ⟨p, hp, h1, h2, _, _, _⟩ := final_progress_chain pm env.new_release_id env.now
    (get_dataset_images env db config.dataset_ids).length
    (resolvedPaths env (get_dataset_images env db config.dataset_ids)).length
    ((env.process_results.map fun r => r.2.length).sum) hn
  exact ⟨p, hp, h1, h2⟩

/-- A pending transformation row used by concrete runs. -/
def transEx : TransRec :=
  { id := "t1", transformation_type := "flip", parameters := "p",
    is_enabled := true, order_index := 0, release_version := "v1",
    status := "PENDING" }

/-- Two dataset images used by concrete runs. -/
def imgRecA : ImageRec :=
  { id := "i1", filename := "a.jpg", file_path := "a.jpg", dataset_id := "d1",
    split_type := "dataset", width := 10, height := 10 }

def imgRecB : ImageRec :=
  { id := "i2", filename := "b.jpg", file_path := "b.jpg", dataset_id := "d1",
    split_type := "dataset", width := 10, height := 10 }

def dbEx : DB := { releases := [], transformations := [transEx], images := [imgRecA, imgRecB] }

def dbNoTrans : DB := { dbEx with transformations := [] }

def dbNoImgs : DB := { dbEx with images := [] }

def cfgEx : ReleaseConfig :=
  { release_name := "rel", description := "d", project_id := 1, dataset_ids := ["d1"] }

/-- A fully healthy environment: both image paths resolve under `./`. -/
def envBase : Env :=
  { new_release_id := "rid1", now := 7, create_commit := .ok (),
    path_exists := fun p => p == "./a.jpg" || p == "./b.jpg",
    process_results := grDetEx, counts_commit := .ok (), mark_commit := .ok (),
    export_result := .ok "releases/release_rid1/export", export_commit := .ok () }

def envExportFail : Env := { envBase with export_result := .error "disk full" }

def envSkip : Env := { envBase with path_exists := fun p => p == "./a.jpg" }

def envMarkFail : Env := { envBase with mark_commit := .error "mark boom" }

def envCreateFail : Env := { envBase with create_commit := .error "create boom" }

def envCountsFail : Env := { envBase with counts_commit := .error "counts boom" }

def envExpCommitFail : Env := { envBase with export_commit := .error "exp boom" }

def envTransQErr : Env := { envBase with trans_query_error := some "db down" }

def envImgQErr : Env := { envBase with image_query_error := some "db down" }

/-- Witness for C3 on a concrete run with a failing export writer. -/
theorem export_failure_release_completed_witness :
    generate_export_files envExportFail = none ∧
    (generate_release envExportFail dbEx [] cfgEx "v1").1 = .ok "rid1" ∧
    ∃ p, pmGet (generate_release envExportFail dbEx [] cfgEx "v1").2.2 "rid1" = some p ∧
      p.status = "completed" ∧ p.current_step = "completed" :=
  export_failure_release_completed envExportFail dbEx [] cfgEx "v1" "disk full"
    rfl (by decide) (by decide) rfl rfl

/-- C4 counterexample: a successful run in which one of two image paths
fails to resolve ends `completed` with percentage 50, not 100. -/
theorem generate_release_final_percentage_counterexample :
    (generate_release envSkip dbEx [] cfgEx "v1").1 = .ok "rid1" ∧
    (pmGet (generate_release envSkip dbEx [] cfgEx "v1").2.2 "rid1").map
      ReleaseProgress.status = some "completed" ∧
    (pmGet (generate_release envSkip dbEx [] cfgEx "v1").2.2 "rid1").map
      ReleaseProgress.progress_percentage =
        some (((1 : Nat) : Rat) / ((2 : Nat) : Rat) * 100) ∧
    ((1 : Nat) : Rat) / ((2 : Nat) : Rat) * 100 ≠ 100 := by
  refine ⟨rfl, rfl, rfl, by norm_num⟩

/-- C4 as amended: every successful run ends with state `completed`, step
`"completed"`, and percentage `100·processed/total` (the explicit 100 being
overwritten by the recomputation); the percentage is exactly 100 precisely
when every image path resolved (`processed = total`). -/
theorem generate_release_final_progress (env : Env) (db : DB) (pm : ProgressMap)
    (config : ReleaseConfig) (version : String)
    (hc : env.create_commit = .ok ())
    (hload : load_pending_transformations env db version ≠ [])
    (himgs : get_dataset_images env db config.dataset_ids ≠ [])
    (hcounts : env.counts_commit = .ok ())
    (hstage : (∃ e, env.export_result = .error e) ∨ env.export_commit = .ok ()) :
    (generate_release env db pm config version).1 = .ok env.new_release_id ∧
    ∃ p, pmGet (generate_release env db pm config version).2.2
        env.new_release_id = some p ∧
      p.status = "completed" ∧ p.current_step = "completed" ∧
      p.total_images = (get_dataset_images env db config.dataset_ids).length ∧
      p.processed_images =
        (resolvedPaths env (get_dataset_images env db config.dataset_ids)).length ∧
      p.progress_percentage =
        ((p.processed_images : Rat) / (p.total_images : Rat)) * 100 ∧
      (p.processed_images = p.total_images → p.progress_percentage = 100) := by
  have hs := generate_release_success env db pm config version hc hload himgs hcounts hstage
  refine ⟨hs.1, ?_⟩
  rw [hs.2]
  have hn : 0 < (get_dataset_images env db config.dataset_ids).length :=
    List.length_pos.mpr himgs
  obtain ⟨p, hp, h1, h2, h3, h4, h5⟩ := final_progress_chain pm env.new_release_id env.now
    (get_dataset_images env db config.dataset_ids).length
    (resolvedPaths env (get_dataset_images env db config.dataset_ids)).length
    ((env.process_results.map fun r => r.2.length).sum) hn
  refine ⟨p, hp, h1, h2, h3, h4, ?_, ?_⟩
  · rw [h5, h3, h4]
  · intro he
    have hrn : (p.processed_images : Rat) = (p.total_images : Rat) := by rw [he]
    rw [h5, ← h4, ← h3, hrn, div_self, one_mul]
    rw [h3]
    exact Nat.cast_ne_zero.mpr (Nat.pos_iff_ne_zero.mp hn)

/-- Witness for C4's amended claim on a concrete skip-run. -/
theorem generate_release_final_progress_witness :
    (generate_release envSkip dbEx [] cfgEx "v1").1 = .ok "rid1" ∧
    ∃ p, pmGet (generate_release envSkip dbEx [] cfgEx "v1").2.2 "rid1" = some p ∧
      p.status = "completed" ∧ p.current_step = "completed" ∧
      p.total_images = (get_dataset_images envSkip dbEx cfgEx.dataset_ids).length ∧
      p.processed_images =
        (resolvedPaths envSkip (get_dataset_images envSkip dbEx cfgEx.dataset_ids)).length ∧
      p.progress_percentage =
        ((p.processed_images : Rat) / (p.total_images : Rat)) * 100 ∧
      (p.processed_images = p.total_images → p.progress_percentage = 100) :=
  generate_release_final_progress envSkip dbEx [] cfgEx "v1"
    rfl (by decide) (by decide) rfl (Or.inr rfl)

/-- C6: with zero eligible transformations — or zero eligible images — the
run fails with the validation message, which is re-raised; the progress
entry is `failed` with that message and percentage still 0; the created
release row has no count fields set. -/
theorem generate_release_validation_failure (env : Env) (db : DB) (pm : ProgressMap)
    (config : ReleaseConfig) (version : String)
    (hfresh : pmGet pm env.new_release_id = none)
    (hc : env.create_commit = .ok ()) :
    (load_pending_transformations env db version = [] →
      (generate_release env db pm config version).1 =
        .error ("No pending transformations found for version " ++ version) ∧
      (∃ rrec, (generate_release env db pm config version).2.1.releases =
          db.releases ++ [rrec] ∧
        rrec.total_original_images = none ∧ rrec.total_augmented_images = none ∧
        rrec.final_image_count = none) ∧
      ∃ p, pmGet (generate_release env db pm config version).2.2
          env.new_release_id = some p ∧
        p.status = "failed" ∧
        p.error_message = some ("Failed to generate release: " ++
          ("No pending transformations found for version " ++ version)) ∧
        p.progress_percentage = 0) ∧
    (load_pending_transformations env db version ≠ [] →
      get_dataset_images env db config.dataset_ids = [] →
      (generate_release env db pm config version).1 =
        .error "No images found in datasets" ∧
      (∃ rrec, (generate_release env db pm config version).2.1.releases =
          db.releases ++ [rrec] ∧
        rrec.total_original_images = none ∧ rrec.total_augmented_images = none ∧
        rrec.final_image_count = none) ∧
      ∃ p, pmGet (generate_release env db pm config version).2.2
          env.new_release_id = some p ∧
        p.status = "failed" ∧
        p.error_message = some ("Failed to generate release: " ++
          "No images found in datasets") ∧
        p.progress_percentage = 0) := by
  constructor
  · intro hl
    have hg := generate_release_no_trans env db pm config version hc hl
    rw [hg]
    exact ⟨rfl, ⟨newReleaseRec env config, rfl, rfl, rfl, rfl⟩,
      fail_chain_fields pm env.new_release_id env.now _ hfresh⟩
  · intro hl hi
    have hg := generate_release_no_images env db pm config version hc hl hi
    rw [hg]
    exact ⟨rfl, ⟨newReleaseRec env config, rfl, rfl, rfl, rfl⟩,
      fail_chain_fields pm env.new_release_id env.now _ hfresh⟩

/-- Witness for C6 on concrete empty-catalog and empty-image runs. -/
theorem generate_release_validation_failure_witness :
    (generate_release envBase dbNoTrans [] cfgEx "v1").1 =
      .error ("No pending transformations found for version " ++ "v1") ∧
    (generate_release envBase dbNoImgs [] cfgEx "v1").1 =
      .error "No images found in datasets" := by
  have h1 := ((generate_release_validation_failure envBase dbNoTrans [] cfgEx "v1"
    rfl rfl).1 (by decide)).1
  have h2 := ((generate_release_validation_failure envBase dbNoImgs [] cfgEx "v1"
    rfl rfl).2 (by decide) (by decide)).1
  exact ⟨h1, h2⟩

/-- C7 counterexample: a commit error in the transformation-completion
marking is NOT re-raised — the run still returns ok — and a commit error in
record creation leaves the progress map untouched (nothing is marked
failed). -/
theorem commit_error_counterexample :
    (generate_release envMarkFail dbEx [] cfgEx "v1").1 = .ok "rid1" ∧
    (generate_release envCreateFail dbEx [] cfgEx "v1").2.2 = ([] : ProgressMap) ∧
    (generate_release envCreateFail dbEx [] cfgEx "v1").1 = .error "create boom" := by
  exact ⟨rfl, rfl, rfl⟩

/-- C7 as amended: a commit error during release-record create is rolled
back and re-raised with no progress entry touched; commit errors during the
post-augmentation and post-export record updates are re-raised and progress
is marked failed; a commit error during the transformation-completion
marking is rolled back and logged but NOT re-raised — the run proceeds and
returns ok with the transformation rows unchanged. -/
theorem persistence_commit_errors (env : Env) (db : DB) (pm : ProgressMap)
    (config : ReleaseConfig) (version : String) :
    (∀ e, env.create_commit = .error e →
      generate_release env db pm config version = (.error e, db, pm)) ∧
    (∀ e, env.create_commit = .ok () →
      load_pending_transformations env db version ≠ [] →
      get_dataset_images env db config.dataset_ids ≠ [] →
      env.counts_commit = .error e →
      (generate_release env db pm config version).1 = .error e ∧
      (generate_release env db pm config version).2.1 =
        { db with releases := db.releases ++ [newReleaseRec env config] } ∧
      ∃ p, pmGet (generate_release env db pm config version).2.2
          env.new_release_id = some p ∧
        p.status = "failed" ∧
        p.error_message = some ("Failed to generate release: " ++ e)) ∧
    (∀ e, env.create_commit = .ok () →
      load_pending_transformations env db version ≠ [] →
      get_dataset_images env db config.dataset_ids ≠ [] →
      env.counts_commit = .ok () →
      env.mark_commit = .error e →
      ((∃ e2, env.export_result = .error e2) ∨ env.export_commit = .ok ()) →
      (generate_release env db pm config version).1 = .ok env.new_release_id ∧
      (generate_release env db pm config version).2.1.transformations =
        db.transformations) ∧
    (∀ e path, env.create_commit = .ok () →
      load_pending_transformations env db version ≠ [] →
      get_dataset_images env db config.dataset_ids ≠ [] →
      env.counts_commit = .ok () →
      env.export_result = .ok path →
      env.export_commit = .error e →
      (generate_release env db pm config version).1 = .error e ∧
      ∃ p, pmGet (generate_release env db pm config version).2.2
          env.new_release_id = some p ∧
        p.status = "failed" ∧
        p.error_message = some ("Failed to generate release: " ++ e)) :=
  ⟨fun e he => generate_release_create_error env db pm config version e he,
   fun e hc h1 h2 h3 => generate_release_counts_error env db pm config version e hc h1 h2 h3,
   fun e hc h1 h2 h3 h4 h5 =>
     generate_release_mark_swallowed env db pm config version e hc h1 h2 h3 h4 h5,
   fun e path hc h1 h2 h3 h4 h5 =>
     generate_release_export_commit_error env db pm config version e path hc h1 h2 h3 h4 h5⟩

/-- Witness for C7's amended claim at concrete runs, one per commit site. -/
theorem persistence_commit_errors_witness :
    generate_release envCreateFail dbEx [] cfgEx "v1" = (.error "create boom", dbEx, []) ∧
    (generate_release envCountsFail dbEx [] cfgEx "v1").1 = .error "counts boom" ∧
    (generate_release envMarkFail dbEx [] cfgEx "v1").2.1.transformations =
      dbEx.transformations ∧
    (generate_release envExpCommitFail dbEx [] cfgEx "v1").1 = .error "exp boom" := by
  refine ⟨(persistence_commit_errors envCreateFail dbEx [] cfgEx "v1").1 "create boom" rfl,
    ((persistence_commit_errors envCountsFail dbEx [] cfgEx "v1").2.1 "counts boom"
      rfl (by decide) (by decide) rfl).1,
    ((persistence_commit_errors envMarkFail dbEx [] cfgEx "v1").2.2.1 "mark boom"
      rfl (by decide) (by decide) rfl rfl (Or.inr rfl)).2,
    ((persistence_commit_errors envExpCommitFail dbEx [] cfgEx "v1").2.2.2 "exp boom"
      "releases/release_rid1/export" rfl (by decide) (by decide) rfl rfl rfl).1⟩

/-- C10: a raised transformation-catalog or dataset-image query error is
caught by the loader, which returns an empty list, so the run fails through
the same NoTransformations/NoImages validation path — with the validation
message, not the underlying persistence error. -/
theorem query_error_validation_path (env : Env) (db : DB) (pm : ProgressMap)
    (config : ReleaseConfig) (version : String)
    (hfresh : pmGet pm env.new_release_id = none)
    (hc : env.create_commit = .ok ()) :
    (∀ e, env.trans_query_error = some e →
      load_pending_transformations env db version = [] ∧
      (generate_release env db pm config version).1 =
        .error ("No pending transformations found for version " ++ version) ∧
      ∃ p, pmGet (generate_release env db pm config version).2.2
          env.new_release_id = some p ∧
        p.status = "failed" ∧
        p.error_message = some ("Failed to generate release: " ++
          ("No pending transformations found for version " ++ version))) ∧
    (∀ e, env.image_query_error = some e → env.trans_query_error = none →
      pendingFilter db version ≠ [] →
      get_dataset_images env db config.dataset_ids = [] ∧
      (generate_release env db pm config version).1 =
        .error "No images found in datasets" ∧
      ∃ p, pmGet (generate_release env db pm config version).2.2
          env.new_release_id = some p ∧
        p.status = "failed" ∧
        p.error_message = some ("Failed to generate release: " ++
          "No images found in datasets")) := by
  constructor
  · intro e he
    have hl : load_pending_transformations env db version = [] := by
      simp [load_pending_transformations, he]
    have hg := generate_release_no_trans env db pm config version hc hl
    rw [hg]
    obtain ⟨p, hp, h1, h2, _⟩ := fail_chain_fields pm env.new_release_id env.now
      ("No pending transformations found for version " ++ version) hfresh
    exact ⟨hl, rfl, p, hp, h1, h2⟩
  · intro e he ht hpf
    have hl : load_pending_transformations env db version ≠ [] := by
      simpa [load_pending_transformations, ht] using hpf
    have hi : get_dataset_images env db config.dataset_ids = [] := by
      simp [get_dataset_images, he]
    have hg := generate_release_no_images env db pm config version hc hl hi
    rw [hg]
    obtain ⟨p, hp, h1, h2, _⟩ := fail_chain_fields pm env.new_release_id env.now
      "No images found in datasets" hfresh
    exact ⟨hi, rfl, p, hp, h1, h2⟩

/-- Witness for C10 at concrete runs whose queries raise. -/
theorem query_error_validation_path_witness :
    load_pending_transformations envTransQErr dbEx "v1" = [] ∧
    (generate_release envTransQErr dbEx [] cfgEx "v1").1 =
      .error ("No pending transformations found for version " ++ "v1") ∧
    get_dataset_images envImgQErr dbEx cfgEx.dataset_ids = [] := by
  obtain ⟨h1, h2, _⟩ := (query_error_validation_path envTransQErr dbEx [] cfgEx "v1"
    rfl rfl).1 "db down" rfl
  have h3 := ((query_error_validation_path envImgQErr dbEx [] cfgEx "v1"
    rfl rfl).2 "db down" rfl rfl (by decide)).1
  exact ⟨h1, h2, h3⟩

/-! ## Export Artifact Writer (`_create_export_files`) and failure cleanup

Filesystem paths are modelled as component lists (`os.path.join` is list
append); the filesystem itself as the sets of existing directories and of
files with contents.  Encoder outputs and step failures (write, image copy,
relocation) are supplied by a writer environment. -/

abbrev FPath := List String

structure FS where
  dirs : List FPath
  files : List (FPath × String)
deriving DecidableEq

/-- The `ExportRequest` handed to the writer. -/
structure ExportRequest where
  annotations : List ExportAnn
  images : List ImageInfo
  classes : List UnifiedClass
  format : String
  include_images : Bool
  dataset_name : String
  task_type : String
  project_type : String

/-- External outcomes of one `_create_export_files` call. -/
structure WriterEnv where
  temp_suffix : String
  yolo_det_files : Except String (List (FPath × String))
  yolo_seg_files : Except String (List (FPath × String))
  coco_doc : Except String String
  voc_files : Except String (List (FPath × String))
  csv_doc : Except String String
  write_error : Option String := none
  copy_error : Option String := none
  relocate_error : Option String := none
  src_exists : String → Bool

/-- The fresh `tempfile.mkdtemp(prefix=f"release_{id}_")` staging directory. -/
def tempDirName (env : WriterEnv) (release_id : String) : FPath :=
  ["tmp", "release_" ++ release_id ++ "_" ++ env.temp_suffix]

/-- The final `releases/release_<id>/export` location. -/
def finalExportDir (release_id : String) : FPath :=
  ["releases", "release_" ++ release_id, "export"]

/-- The encoder dispatch in `_create_export_files`, as the mapping of files
it writes into the staging export directory (COCO and CSV go to the fixed
`annotations.json` / `annotations.csv` names). -/
def encodeFiles (env : WriterEnv) (req : ExportRequest) :
    Except String (List (FPath × String)) :=
  if req.format == "yolo_detection" then env.yolo_det_files
  else if req.format == "yolo_segmentation" then env.yolo_seg_files
  else if req.format == "coco" then env.coco_doc.map fun d => [(["annotations.json"], d)]
  else if req.format == "pascal_voc" then env.voc_files
  else if req.format == "csv" then env.csv_doc.map fun d => [(["annotations.csv"], d)]
  else .ok []

/-- Writing the encoder output files into a directory. -/
def writeFiles (fs : FS) (dir : FPath) (fls : List (FPath × String)) : FS :=
  { fs with files := fs.files ++ fls.map fun pr => (dir ++ pr.1, pr.2) }

/-- The copies performed by the image-copy loop: every referenced source
whose path exists, silently skipping the rest. -/
def copiedImageFiles (env : WriterEnv) (req : ExportRequest) (images_dir : FPath) :
    List (FPath × String) :=
  req.images.filterMap fun img =>
    if img.file_path != "" && env.src_exists img.file_path then
      some (images_dir ++ [img.name], "")
    else none

/-- The image-copy step with inclusion requested: `images` subfolder
created, then the copy loop runs (or raises). -/
def copyImagesIncluded (env : WriterEnv) (fs : FS) (req : ExportRequest)
    (export_dir : FPath) : FS × Option String :=
  let images_dir := export_dir ++ ["images"]
  let fs1 := { fs with dirs := fs.dirs ++ [images_dir] }
  match env.copy_error with
  | some e => (fs1, some e)
  | none => ({ fs1 with files := fs1.files ++ copiedImageFiles env req images_dir }, none)

/-- The image-copy step of `_create_export_files`. -/
def copyImages (env : WriterEnv) (fs : FS) (req : ExportRequest)
    (export_dir : FPath) : FS × Option String :=
  if req.include_images then copyImagesIncluded env fs req export_dir
  else (fs, none)

/-- Remapping of one staged path into the final location during the
relocation loop (contents of the staging export dir, any depth). -/
def remapPath (export_dir final_dir p : FPath) : Option FPath :=
  if export_dir.isPrefixOf p && p != export_dir then
    some (final_dir ++ p.drop export_dir.length)
  else none

/-- The relocation step: contents of the staging export directory are
copied into the final directory, merging with pre-existing content. -/
def relocate (fs : FS) (export_dir final_dir : FPath) : FS :=
  { dirs := fs.dirs ++ fs.dirs.filterMap (remapPath export_dir final_dir),
    files := fs.files ++ fs.files.filterMap fun pr =>
      (remapPath export_dir final_dir pr.1).map fun q => (q, pr.2) }

/-- `shutil.rmtree`: the directory and everything below it disappear. -/
def rmTree (dir : FPath) (fs : FS) : FS :=
  { dirs := fs.dirs.filter fun d => !(dir.isPrefixOf d),
    files := fs.files.filter fun pr => !(dir.isPrefixOf pr.1) }

/-- The `try` body of `_create_export_files`: encode, write, copy images,
make the final directory, relocate.  Returns the state reached together
with the outcome. -/
def createExportBody (env : WriterEnv) (req : ExportRequest) (release_id : String)
    (export_dir : FPath) (fs : FS) : FS × Except String FPath :=
  match encodeFiles env req with
  | .error e => (fs, .error e)
  | .ok fls =>
    match env.write_error with
    | some e => (fs, .error e)
    | none =>
      let fs1 := writeFiles fs export_dir fls
      match copyImages env fs1 req export_dir with
      | (fs2, some e) => (fs2, .error e)
      | (fs2, none) =>
        let final_dir := finalExportDir release_id
        let fs3 := { fs2 with dirs := fs2.dirs ++ [final_dir] }
        match env.relocate_error with
        | some e => (fs3, .error e)
        | none => (relocate fs3 export_dir final_dir, .ok final_dir)

/-- `ReleaseController._create_export_files`: stages into a fresh temporary
directory, and removes that directory both on success (after relocation)
and on failure (before the error is surfaced). -/
def create_export_files (env : WriterEnv) (req : ExportRequest)
    (release_id : String) (fs : FS) : Except String FPath × FS :=
  let temp_dir := tempDirName env release_id
  let export_dir := temp_dir ++ ["release_" ++ release_id ++ "_export"]
  let fs0 := { fs with dirs := fs.dirs ++ [temp_dir, export_dir] }
  match createExportBody env req release_id export_dir fs0 with
  | (fs1, .ok final_dir) => (.ok final_dir, rmTree temp_dir fs1)
  | (fs1, .error e) => (.error e, rmTree temp_dir fs1)

theorem isPrefixOf_refl {α} [BEq α] [LawfulBEq α] (l : List α) :
    (l.isPrefixOf l) = true := by
  induction l with
  | nil => rfl
  | cons a t ih => simp [List.isPrefixOf, ih]

theorem isPrefixOf_append_self {α} [BEq α] [LawfulBEq α] (l m : List α) :
    (l.isPrefixOf (l ++ m)) = true := by
  induction l with
  | nil => cases m <;> rfl
  | cons a t ih => simp [List.isPrefixOf, ih]

theorem rmTree_dirs (dir : FPath) (fs : FS) :
    ∀ d ∈ (rmTree dir fs).dirs, (dir.isPrefixOf d) = false := by
  intro d hd
  rw [rmTree] at hd
  simp only [List.mem_filter] at hd
  simpa using hd.2

theorem rmTree_files (dir : FPath) (fs : FS) :
    ∀ pr ∈ (rmTree dir fs).files, (dir.isPrefixOf pr.1) = false := by
  intro pr hpr
  rw [rmTree] at hpr
  simp only [List.mem_filter] at hpr
  simpa using hpr.2

theorem create_export_files_shape (env : WriterEnv) (req : ExportRequest)
    (release_id : String) (fs : FS) :
    create_export_files env req release_id fs =
      ((createExportBody env req release_id
          (tempDirName env release_id ++ ["release_" ++ release_id ++ "_export"])
          { fs with dirs := fs.dirs ++ [tempDirName env release_id,
              tempDirName env release_id ++ ["release_" ++ release_id ++ "_export"]] }).2,
        rmTree (tempDirName env release_id)
          (createExportBody env req release_id
            (tempDirName env release_id ++ ["release_" ++ release_id ++ "_export"])
            { fs with dirs := fs.dirs ++ [tempDirName env release_id,
                tempDirName env release_id ++
                  ["release_" ++ release_id ++ "_export"]] }).1) := by
  rw [create_export_files]
  cases hb : createExportBody env req release_id
      (tempDirName env release_id ++ ["release_" ++ release_id ++ "_export"])
      { fs with dirs := fs.dirs ++ [tempDirName env release_id,
          tempDirName env release_id ++ ["release_" ++ release_id ++ "_export"]] } with
  | mk fs1 res =>
    cases res with
    | ok p => rfl
    | error e => rfl

theorem createExportBody_ok_inv (env : WriterEnv) (req : ExportRequest)
    (release_id : String) (export_dir : FPath) (fs : FS) (fs1 : FS) (p : FPath)
    (h : createExportBody env req release_id export_dir fs = (fs1, .ok p)) :
    p = finalExportDir release_id := by
  rw [createExportBody] at h
  cases henc : encodeFiles env req with
  | error e => rw [henc] at h; cases h
  | ok fls =>
    rw [henc] at h
    cases hw : env.write_error with
    | some e => rw [hw] at h; cases h
    | none =>
      rw [hw] at h
      simp only at h
      cases hcp : copyImages env (writeFiles { fs with
          dirs := fs.dirs } export_dir fls) req export_dir with
      | mk fs2 copyres =>
        rw [hcp] at h
        cases copyres with
        | some e => cases h
        | none =>
          cases hr : env.relocate_error with
          | some e => rw [hr] at h; cases h
          | none => rw [hr] at h; cases h; rfl


/-- A file staged at `sub` below the staging export directory is, after
relocation and temp-tree removal, present at `sub` below the final export
directory. -/
theorem relocated_file_mem (env : WriterEnv) (release_id : String) (fsX : FS)
    (sub : FPath) (c : String)
    (hmem : ((tempDirName env release_id ++ ["release_" ++ release_id ++ "_export"]) ++ sub, c)
      ∈ fsX.files)
    (hsub : sub ≠ []) :
    (finalExportDir release_id ++ sub, c) ∈
      (rmTree (tempDirName env release_id)
        (relocate { fsX with dirs := fsX.dirs ++ [finalExportDir release_id] }
          (tempDirName env release_id ++ ["release_" ++ release_id ++ "_export"])
          (finalExportDir release_id))).files := by
  set EXP : FPath := tempDirName env release_id ++ ["release_" ++ release_id ++ "_export"]
    with hEXP
  rw [rmTree]
  apply List.mem_filter.mpr
  constructor
  · rw [relocate]
    refine List.mem_append.mpr (Or.inr ?_)
    refine List.mem_filterMap.mpr ⟨(EXP ++ sub, c), hmem, ?_⟩
    have hc : (EXP.isPrefixOf (EXP ++ sub) && ((EXP ++ sub) != EXP)) = true := by
      rw [isPrefixOf_append_self]
      simp only [Bool.true_and, bne_iff_ne, ne_eq]
      intro heq
      apply hsub
      have hl := congrArg List.length heq
      simp only [List.length_append] at hl
      have : sub.length = 0 := by omega
      exact List.eq_nil_of_length_eq_zero this
    rw [remapPath, if_pos hc, List.drop_left]
    rfl
  · have hpre : (tempDirName env release_id).isPrefixOf
        (finalExportDir release_id ++ sub) = false := by
      simp only [tempDirName, finalExportDir, List.cons_append, List.isPrefixOf]
      rw [show ("tmp" == "releases") = false from by decide]
      simp
    simp [hpre]

/-- C8: the Export Artifact Writer always removes its release-scoped
temporary staging directory — nothing under it remains in either outcome,
so a raised step error is surfaced only after cleanup; a success always
reports the final `releases/release_<id>/export` location; and when every
step succeeds each encoder output file has been relocated under that final
location. -/
theorem create_export_files_cleanup (env : WriterEnv) (req : ExportRequest)
    (release_id : String) (fs : FS) :
    (∀ d ∈ (create_export_files env req release_id fs).2.dirs,
        ((tempDirName env release_id).isPrefixOf d) = false) ∧
    (∀ pr ∈ (create_export_files env req release_id fs).2.files,
        ((tempDirName env release_id).isPrefixOf pr.1) = false) ∧
    (∀ p, (create_export_files env req release_id fs).1 = .ok p →
        p = finalExportDir release_id) ∧
    (∀ fls, encodeFiles env req = .ok fls → env.write_error = none →
      (req.include_images = true → env.copy_error = none) →
      env.relocate_error = none →
      (create_export_files env req release_id fs).1 = .ok (finalExportDir release_id) ∧
      ∀ pr ∈ fls, pr.1 ≠ [] →
        (finalExportDir release_id ++ pr.1, pr.2) ∈
          (create_export_files env req release_id fs).2.files) := by
  have hshape := create_export_files_shape env req release_id fs
  refine ⟨?_, ?_, ?_, ?_⟩
  · rw [hshape]; exact rmTree_dirs _ _
  · rw [hshape]; exact rmTree_files _ _
  · intro p hp
    rw [hshape] at hp
    cases hb : createExportBody env req release_id
        (tempDirName env release_id ++ ["release_" ++ release_id ++ "_export"])
        { fs with dirs := fs.dirs ++ [tempDirName env release_id,
            tempDirName env release_id ++ ["release_" ++ release_id ++ "_export"]] } with
    | mk fsb res =>
      rw [hb] at hp
      simp only at hp
      subst hp
      exact createExportBody_ok_inv _ _ _ _ _ _ _ hb
  · intro fls henc hw hcopy hrel
    cases hinc : req.include_images with
    | false =>
      have hbody : createExportBody env req release_id
          (tempDirName env release_id ++ ["release_" ++ release_id ++ "_export"])
          { fs with dirs := fs.dirs ++ [tempDirName env release_id,
              tempDirName env release_id ++ ["release_" ++ release_id ++ "_export"]] } =
          (relocate { (writeFiles { fs with dirs := fs.dirs ++ [tempDirName env release_id,
                tempDirName env release_id ++ ["release_" ++ release_id ++ "_export"]] }
              (tempDirName env release_id ++ ["release_" ++ release_id ++ "_export"]) fls) with
              dirs := (writeFiles { fs with dirs := fs.dirs ++ [tempDirName env release_id,
                tempDirName env release_id ++ ["release_" ++ release_id ++ "_export"]] }
                (tempDirName env release_id ++ ["release_" ++ release_id ++ "_export"]) fls).dirs
                ++ [finalExportDir release_id] }
            (tempDirName env release_id ++ ["release_" ++ release_id ++ "_export"])
            (finalExportDir release_id), .ok (finalExportDir release_id)) := by
        rw [createExportBody.eq_def, henc, hw]
        simp only [copyImages, hinc, Bool.false_eq_true, if_false, hrel]
      constructor
      · rw [hshape, hbody]
      · intro pr hpr hne
        rw [hshape, hbody]
        apply relocated_file_mem
        · rw [writeFiles]
          exact List.mem_append_right _ (List.mem_map_of_mem _ hpr)
        · exact hne
    | true =>
      have hcpe : env.copy_error = none := hcopy hinc
      have hbody : createExportBody env req release_id
          (tempDirName env release_id ++ ["release_" ++ release_id ++ "_export"])
          { fs with dirs := fs.dirs ++ [tempDirName env release_id,
              tempDirName env release_id ++ ["release_" ++ release_id ++ "_export"]] } =
          (relocate { (copyImagesIncluded env
              (writeFiles { fs with dirs := fs.dirs ++ [tempDirName env release_id,
                tempDirName env release_id ++ ["release_" ++ release_id ++ "_export"]] }
                (tempDirName env release_id ++ ["release_" ++ release_id ++ "_export"]) fls)
              req (tempDirName env release_id ++
                ["release_" ++ release_id ++ "_export"])).1 with
              dirs := (copyImagesIncluded env
                (writeFiles { fs with dirs := fs.dirs ++ [tempDirName env release_id,
                  tempDirName env release_id ++ ["release_" ++ release_id ++ "_export"]] }
                  (tempDirName env release_id ++ ["release_" ++ release_id ++ "_export"]) fls)
                req (tempDirName env release_id ++
                  ["release_" ++ release_id ++ "_export"])).1.dirs
                ++ [finalExportDir release_id] }
            (tempDirName env release_id ++ ["release_" ++ release_id ++ "_export"])
            (finalExportDir release_id), .ok (finalExportDir release_id)) := by
        rw [createExportBody.eq_def, henc, hw]
        simp only [copyImages, hinc, if_true, copyImagesIncluded, hcpe, hrel]
      constructor
      · rw [hshape, hbody]
      · intro pr hpr hne
        rw [hshape, hbody]
        apply relocated_file_mem
        · rw [copyImagesIncluded, hcpe]
          simp only [writeFiles]
          exact List.mem_append_left _
            (List.mem_append_right _ (List.mem_map_of_mem _ hpr))
        · exact hne

/-- A concrete writer environment and request. -/
def wenvEx : WriterEnv :=
  { temp_suffix := "T", yolo_det_files := .ok [(["labels.txt"], "0 0 0 1 1")],
    yolo_seg_files := .ok [], coco_doc := .ok "doc", voc_files := .ok [],
    csv_doc := .ok "csv", src_exists := fun _ => false }

def reqEx : ExportRequest :=
  { annotations := [], images := [], classes := [], format := "yolo_detection",
    include_images := true, dataset_name := "release_rid1",
    task_type := "object_detection", project_type := "general" }

/-- Witness for C8 on a concrete run. -/
theorem create_export_files_cleanup_witness :
    (create_export_files wenvEx reqEx "rid1" { dirs := [], files := [] }).1 =
      .ok (finalExportDir "rid1") ∧
    (finalExportDir "rid1" ++ ["labels.txt"], "0 0 0 1 1") ∈
      (create_export_files wenvEx reqEx "rid1" { dirs := [], files := [] }).2.files := by
  have h := (create_export_files_cleanup wenvEx reqEx "rid1"
    { dirs := [], files := [] }).2.2.2 [(["labels.txt"], "0 0 0 1 1")]
    rfl rfl (fun _ => rfl) rfl
  exact ⟨h.1, h.2 (["labels.txt"], "0 0 0 1 1") (by decide) (by decide)⟩

/-- `ReleaseController.cleanup_failed_release`: removes the release output
directory when present, then drops the progress entry when present; any
raised error would be caught and logged (the pure model raises none). -/
def cleanup_failed_release (fs : FS) (pm : ProgressMap) (release_id : String) :
    FS × ProgressMap :=
  let output_dir : FPath := ["backend", "releases", release_id]
  let fs2 := if fs.dirs.contains output_dir then rmTree output_dir fs else fs
  let pm2 := if (pmGet pm release_id).isSome then pmErase pm release_id else pm
  (fs2, pm2)

theorem pmGet_pmErase_self (pm : ProgressMap) (rid : String) :
    pmGet (pmErase pm rid) rid = none := by
  induction pm with
  | nil => rfl
  | cons e t ih =>
    by_cases he : (e.1 != rid) = true
    · have hbeq : (rid == e.1) = false := by
        simp only [bne_iff_ne, ne_eq] at he
        simp only [beq_eq_false_iff_ne, ne_eq]
        intro h
        exact he h.symm
      simp only [pmErase, List.filter_cons, he, if_true]
      simp only [pmGet, List.lookup, hbeq]
      exact ih
    · simp only [pmErase, List.filter_cons, he, if_false]
      exact ih

theorem contains_rmTree_self (dir : FPath) (fs : FS) :
    (rmTree dir fs).dirs.contains dir = false := by
  cases hc : (rmTree dir fs).dirs.contains dir with
  | false => rfl
  | true =>
    have hmem : dir ∈ (rmTree dir fs).dirs := List.mem_of_elem_eq_true hc
    have hfalse := rmTree_dirs dir fs dir hmem
    rw [isPrefixOf_refl] at hfalse
    cases hfalse

/-- C9: `cleanupFailed` is idempotent — the second call is a no-op on both
the filesystem and the progress map (and in the pure model no call ever
errors) — and after any call no progress entry for the release id remains. -/
theorem cleanup_failed_release_idem (fs : FS) (pm : ProgressMap) (release_id : String) :
    cleanup_failed_release (cleanup_failed_release fs pm release_id).1
      (cleanup_failed_release fs pm release_id).2 release_id =
      cleanup_failed_release fs pm release_id ∧
    pmGet (cleanup_failed_release fs pm release_id).2 release_id = none := by
  have hpm : pmGet (cleanup_failed_release fs pm release_id).2 release_id = none := by
    rw [cleanup_failed_release]
    by_cases h : (pmGet pm release_id).isSome = true
    · simp only [h, if_true]
      exact pmGet_pmErase_self pm release_id
    · simp only [h, if_false]
      simpa using Option.not_isSome_iff_eq_none.mp h
  have hfs : (cleanup_failed_release fs pm release_id).1.dirs.contains
      (["backend", "releases", release_id] : FPath) = false := by
    rw [cleanup_failed_release]
    by_cases h : fs.dirs.contains (["backend", "releases", release_id] : FPath) = true
    · simp only [h, if_true]
      exact contains_rmTree_self _ _
    · simp only [h, if_false]
      simpa using h
  refine ⟨?_, hpm⟩
  rw [cleanup_failed_release]
  simp only [hfs, Bool.false_eq_true, if_false, hpm, Option.isSome_none,
    if_false]

end ReleaseCtl
